import Mathlib

/-!
A shallow embedding of the CurrencyPal repository's core logic:

* `src/utils/currency_api.py` — the Rate Client (`convert_currency`,
  `get_rates_to_naira`, `get_currency_symbol`, `format_amount`);
* `src/main.py` — the Intent Classifier and Responder (`process_message`).

Modelling choices, stated once here:

* Python floats are modelled as exact rationals (`PyFloat`, an integer
  numerator with a positive denominator).  Python's `round` (round half to
  even) and the `,.Nf` format specifier are modelled exactly on these
  rationals.  Binary floating-point rounding error, infinities and NaN are
  outside the model.
* A JSON response body is the inductive `Json`.  The Python dynamic
  semantics of the operations the source applies to a decoded body
  (`in`, subscription, `.get`, `*`, `/`) are modelled faithfully,
  including the `TypeError`/`AttributeError` faults they raise on values
  of unexpected type; a raised fault is `Except.error`, a returned value
  is `Except.ok`.
* The upstream HTTP world is a function `World` from the base currency
  code in the request URL to a `FetchOutcome`: one of the exception kinds
  the source's `try/except` chain distinguishes, or a decoded body.
* Strings are manipulated through their character lists so that every
  definition evaluates inside the kernel; `\b`, `\s`, `\d`, `\w` of the
  source's regular expressions are taken in their ASCII reading (the
  inputs the spec discusses are ASCII).
-/

/-! ## Exact rationals standing for Python floats -/

/-- An exact rational: numerator `n`, denominator `d1 + 1` (hence never
zero).  Values built by `pfNorm` are in lowest terms, so structural
equality on built values is value equality. -/
structure PyFloat where
  n : Int
  d1 : Nat
deriving DecidableEq

/-- The (always positive) denominator. -/
def PyFloat.den (q : PyFloat) : Nat := q.d1 + 1

/-- Build `n / d` in lowest terms (`d = 0` never arises from the code;
it is mapped to `0`). -/
def pfNorm (n : Int) (d : Nat) : PyFloat :=
  if d = 0 then ⟨0, 0⟩ else
  let g := Nat.gcd n.natAbs d
  ⟨n.ediv (Int.ofNat g), d / g - 1⟩

def pfOfNat (m : Nat) : PyFloat := ⟨Int.ofNat m, 0⟩

def PyFloat.mul (a b : PyFloat) : PyFloat := pfNorm (a.n * b.n) (a.den * b.den)

/-- The reciprocal `1 / q` (`q = 0` is guarded before every use, as in the
source; it is mapped to `0`). -/
def pfOneDiv (q : PyFloat) : PyFloat :=
  if 0 < q.n then pfNorm (Int.ofNat q.den) q.n.natAbs
  else if q.n < 0 then pfNorm (-(Int.ofNat q.den)) q.n.natAbs
  else ⟨0, 0⟩

/-- Python `round(x)` for our rationals: round half to even, as an
integer. -/
def roundHalfEven (q : PyFloat) : Int :=
  let d : Int := Int.ofNat q.den
  let f : Int := q.n.ediv d
  let r2 : Int := 2 * (q.n - f * d)
  if r2 < d then f
  else if d < r2 then f + 1
  else if f % 2 = 0 then f else f + 1

/-- Python `round(x, k)` for our rationals. -/
def pyRound (q : PyFloat) (k : Nat) : PyFloat :=
  pfNorm (roundHalfEven (q.mul (pfOfNat (10 ^ k)))) (10 ^ k)

/-! ## Character and string helpers -/

/-- Python `str.upper`, ASCII reading. -/
def pyUpper (s : String) : String := String.mk (s.data.map Char.toUpper)

/-- Python `str.lower`, ASCII reading. -/
def pyLower (s : String) : String := String.mk (s.data.map Char.toLower)

/-- The characters Python `str.strip()` removes. -/
def pyWS (c : Char) : Bool :=
  c = ' ' || c = '\t' || c = '\n' || c = '\x0d' || c = '\x0b' || c = '\x0c'

/-- Python `str.strip()`. -/
def pyStrip (s : String) : String :=
  String.mk (((s.data.dropWhile pyWS).reverse.dropWhile pyWS).reverse)

/-- Does list `p` start list `l`? -/
def startsList (p l : List Char) : Bool :=
  match p, l with
  | [], _ => true
  | _ :: _, [] => false
  | a :: p', b :: l' => a = b && startsList p' l'

/-- Python `needle in haystack` on strings: substring containment. -/
def subList (p : List Char) : List Char → Bool
  | [] => p.isEmpty
  | c :: t => startsList p (c :: t) || subList p t

/-- Python `small in big` for strings. -/
def pyInStr (small big : String) : Bool := subList small.data big.data

/-- Value of a list of decimal digits. -/
def digitsVal (cs : List Char) : Nat :=
  cs.foldl (fun a c => a * 10 + (c.toNat - 48)) 0

/-- Python `float(s.replace(',', '.'))` on a string matched by the amount
pattern `\d+([.,]\d+)?`, as an exact rational. -/
def parseAmount (cs : List Char) : PyFloat :=
  let cs' := cs.map (fun c => if c = ',' then '.' else c)
  let ip := cs'.takeWhile (fun c => c ≠ '.')
  let fp := (cs'.dropWhile (fun c => c ≠ '.')).drop 1
  pfNorm (Int.ofNat (digitsVal ip * 10 ^ fp.length + digitsVal fp)) (10 ^ fp.length)

/-- Insert a thousands separator after every third digit, on a reversed
digit list. -/
def group3Rev : List Char → List Char
  | a :: b :: c :: d :: rest => a :: b :: c :: ',' :: group3Rev (d :: rest)
  | l => l

/-- Decimal digits of `m` with thousands separators, as in Python's `,`
format option. -/
def natGrouped (m : Nat) : String :=
  String.mk (group3Rev (Nat.toDigits 10 m).reverse).reverse

def natStr (m : Nat) : String := String.mk (Nat.toDigits 10 m)

/-- Python `f"{q:,.dp f}"`: fixed-point with `dp` decimals and thousands
separators (sign taken from the value, so a negative value rounding to
zero keeps its minus sign, as in Python). -/
def fmtFixed (q : PyFloat) (dp : Nat) : String :=
  let p : Nat := 10 ^ dp
  let m : Int := roundHalfEven (q.mul (pfOfNat p))
  let sign : String := if q.n < 0 then "-" else ""
  let fds := Nat.toDigits 10 (m.natAbs % p)
  sign ++ natGrouped (m.natAbs / p) ++ "." ++
    String.mk (List.replicate (dp - fds.length) '0' ++ fds)

/-- Python `s.rstrip(c)` for a single character. -/
def rstripChar (c : Char) (s : String) : String :=
  String.mk ((s.data.reverse.dropWhile (fun x => x = c)).reverse)

/-- The source's `f"{rate:,.4f}".rstrip('0').rstrip('.')`. -/
def fmtRateStr (q : PyFloat) : String := rstripChar '.' (rstripChar '0' (fmtFixed q 4))

/-- Python `repr`/`str` of one of our float values: shortest decimal form
(used only inside one reply hint of `process_message`). -/
def pyFloatStr (q : PyFloat) : String :=
  let sign := if q.n < 0 then "-" else ""
  let num := q.n.natAbs
  let den := q.den
  let k := (Nat.toDigits 10 den).length
  let scaled := num * 10 ^ k / den
  let ip := scaled / 10 ^ k
  let fds := Nat.toDigits 10 (scaled % 10 ^ k)
  let frac := (List.replicate (k - fds.length) '0' ++ fds).reverse.dropWhile (fun c => c = '0')
  sign ++ natStr ip ++ "." ++ (if frac.isEmpty then "0" else String.mk frac.reverse)

/-! ## JSON values and the Python operations the source applies to them -/

/-- A decoded JSON body. -/
inductive Json where
  | num (q : PyFloat)
  | str (s : String)
  | bool (b : Bool)
  | null
  | arr (xs : List Json)
  | obj (fields : List (String × Json))

/-- Association-list lookup (first binding wins, as in a Python dict). -/
def alookup {α : Type} (k : String) : List (String × α) → Option α
  | [] => none
  | (k', v) :: t => if k' = k then some v else alookup k t

/-- Python `key in data` for a string key: key membership on a dict,
element membership on a list, substring test on a string, and a
`TypeError` on numbers, booleans and `None`. -/
def pyContains (key : String) : Json → Except String Bool
  | .obj fields => .ok (fields.any (fun kv => kv.1 = key))
  | .arr xs => .ok (xs.any (fun v => match v with | .str s => s = key | _ => false))
  | .str s => .ok (pyInStr key s)
  | _ => .error "TypeError: argument of type is not iterable"

/-- Python `data[key]` for a string key: defined on dicts only; a list or
a string subscripted with a string raises a `TypeError`, as does any
non-subscriptable value (a missing key would be a `KeyError`, but the
source always tests membership first). -/
def pyGetItem (key : String) : Json → Except String Json
  | .obj fields =>
    match alookup key fields with
    | some v => .ok v
    | none => .error "KeyError"
  | _ => .error "TypeError: value is not subscriptable with a str"

/-- Python `data.get(key, default)`: defined on dicts only; every other
JSON value lacks the attribute. -/
def pyGetDefault (key : String) (dflt : Json) : Json → Except String Json
  | .obj fields => .ok ((alookup key fields).getD dflt)
  | _ => .error "AttributeError: value has no attribute get"

/-- Python `a * v` for a float `a`: numbers multiply, booleans coerce to
0 or 1, anything else raises a `TypeError`. -/
def pyMulJ (a : PyFloat) : Json → Except String PyFloat
  | .num q => .ok (a.mul q)
  | .bool b => .ok (a.mul (pfOfNat (if b then 1 else 0)))
  | _ => .error "TypeError: unsupported operand types for *"

/-- Python `v != 0`: numeric comparison for numbers and booleans, `True`
for every other JSON value. -/
def pyNeZeroJ : Json → Bool
  | .num q => q.n != 0
  | .bool b => b
  | _ => true

/-- Python `1 / v`: defined for nonzero numbers and `True`; everything
else raises. -/
def pyOneDivJ : Json → Except String PyFloat
  | .num q => if q.n = 0 then .error "ZeroDivisionError" else .ok (pfOneDiv q)
  | .bool b => if b then .ok (pfOfNat 1) else .error "ZeroDivisionError"
  | _ => .error "TypeError: unsupported operand types for /"

/-- The numeric value of a JSON number or boolean (only consulted after
`pyMulJ` has succeeded on the same value). -/
def jNumVal : Json → PyFloat
  | .num q => q
  | .bool b => pfOfNat (if b then 1 else 0)
  | _ => ⟨0, 0⟩

/-! ## The upstream world -/

/-- The outcome of `httpx` fetching `BASE_RATES_URL/<base>`: one of the
exception kinds the source's `except` chain distinguishes (a JSON decode
failure lands in the blanket `except Exception`, here `otherError`), or a
decoded body. -/
inductive FetchOutcome where
  | connectTimeout
  | readTimeout
  | statusError (code : Nat)
  | requestError (msg : String)
  | otherError (msg : String)
  | ok (data : Json)

/-- The upstream service, as a map from the base currency code in the
request URL to the outcome of the fetch. -/
def World := String → FetchOutcome

/-! ## The Rate Client (`src/utils/currency_api.py`) -/

/-- `CURRENCY_SYMBOLS` of the source, as an association list. -/
def CURRENCY_SYMBOLS : List (String × String) :=
  [("USD", "$"), ("EUR", "€"), ("GBP", "£"), ("JPY", "¥"), ("CNY", "¥"),
   ("NGN", "₦"), ("CAD", "C$"), ("AUD", "A$"), ("CHF", "Fr"), ("INR", "₹"),
   ("KRW", "₩"), ("BRL", "R$"), ("ZAR", "R"), ("RUB", "₽"), ("MXN", "$"),
   ("SGD", "S$"), ("HKD", "HK$"), ("SEK", "kr"), ("NOK", "kr"), ("DKK", "kr"),
   ("PLN", "zł"), ("TRY", "₺"), ("THB", "฿"), ("IDR", "Rp"), ("MYR", "RM"),
   ("PHP", "₱"), ("AED", "د.إ"), ("SAR", "﷼"), ("EGP", "E£"), ("ILS", "₪")]

/-- `get_currency_symbol` of the source. -/
def get_currency_symbol (currency_code : String) : String :=
  (alookup (pyUpper currency_code) CURRENCY_SYMBOLS).getD (pyUpper currency_code)

/-- `format_amount` of the source. -/
def format_amount (amount : PyFloat) (currency_code : String) : String :=
  get_currency_symbol currency_code ++ fmtFixed amount 2

/-- The success dictionary `convert_currency` builds (its keys are the
field names). -/
structure ConvOk where
  from_curr : String
  to_curr : String
  amount : PyFloat
  rate : PyFloat
  converted : PyFloat
  formatted_amount : String
  formatted_converted : String
  message : String
deriving DecidableEq

/-- The value `convert_currency` returns: the error dictionary or the
success dictionary. -/
inductive ConvResult where
  | error (msg : String)
  | ok (r : ConvOk)
deriving DecidableEq

/-- `convert_currency` of the source.  `Except.error` is an uncaught
Python fault propagating to the caller; `Except.ok` is the returned
dictionary. -/
def convert_currency (w : World) (from_currency to_currency : String)
    (amount : PyFloat) : Except String ConvResult :=
  let from_curr := pyUpper from_currency
  let to_curr := pyUpper to_currency
  match w from_curr with
  | .connectTimeout =>
    .ok (.error "Connection timed out. The exchange rate service is not responding.")
  | .readTimeout =>
    .ok (.error "Request timed out. The exchange rate service took too long to respond.")
  | .statusError code =>
    .ok (.error ("HTTP error " ++ natStr code ++ ": Unable to fetch exchange rates."))
  | .requestError m => .ok (.error ("Network error: " ++ m))
  | .otherError m => .ok (.error ("An unexpected error occurred: " ++ m))
  | .ok data =>
    match pyContains "rates" data with
    | .error f => .error f
    | .ok false => .ok (.error ("Invalid response from exchange rate service for " ++ from_curr))
    | .ok true =>
      match pyGetItem "rates" data with
      | .error f => .error f
      | .ok rtbl =>
        match pyContains to_curr rtbl with
        | .error f => .error f
        | .ok false => .ok (.error ("Currency " ++ to_curr ++ " not found. Please check the currency code."))
        | .ok true =>
          match pyGetItem to_curr rtbl with
          | .error f => .error f
          | .ok v =>
            match pyMulJ amount v with
            | .error f => .error f
            | .ok result =>
              let rate := jNumVal v
              .ok (.ok
                { from_curr := from_curr
                  to_curr := to_curr
                  amount := amount
                  rate := pyRound rate 4
                  converted := pyRound result 2
                  formatted_amount := format_amount amount from_curr
                  formatted_converted := format_amount result to_curr
                  message := format_amount amount from_curr ++ " = " ++
                    format_amount result to_curr ++ " 💱 (Rate: 1 " ++ from_curr ++
                    " = " ++ fmtRateStr rate ++ " " ++ to_curr ++ ")" })

/-- One entry of `get_rates_to_naira`'s success dictionary. -/
structure RateEntry where
  rate : PyFloat
  formatted : String
deriving DecidableEq

/-- A value of the `Dict[str, Any]` `get_rates_to_naira` returns: the
error message string under `"error"`, or a rate entry under a currency
code. -/
inductive RVal where
  | str (s : String)
  | entry (e : RateEntry)
deriving DecidableEq

/-- The dictionary `get_rates_to_naira` returns, keys in insertion
order. -/
abbrev RatesDict := List (String × RVal)

/-- Python dict assignment `d[k] = v`: replace in place or append. -/
def dinsert (k : String) (v : RVal) : RatesDict → RatesDict
  | [] => [(k, v)]
  | (k', v') :: t => if k' = k then (k, v) :: t else (k', v') :: dinsert k v t

/-- The `for cur in currencies` loop of `get_rates_to_naira`. -/
def ratesLoop (rtbl : Json) : List String → RatesDict → Except String RatesDict
  | [], acc => .ok acc
  | cur :: rest, acc =>
    let cur_upper := pyUpper cur
    match pyContains cur_upper rtbl with
    | .error f => .error f
    | .ok false => ratesLoop rtbl rest acc
    | .ok true =>
      match pyGetItem cur_upper rtbl with
      | .error f => .error f
      | .ok v =>
        if pyNeZeroJ v then
          match pyOneDivJ v with
          | .error f => .error f
          | .ok rate =>
            if rate.n = 0 then ratesLoop rtbl rest acc
            else ratesLoop rtbl rest (dinsert cur_upper
              (.entry { rate := pyRound rate 2
                        formatted := get_currency_symbol cur_upper ++ "1 = " ++
                          get_currency_symbol "NGN" ++ fmtFixed rate 2 }) acc)
        else ratesLoop rtbl rest acc

/-- `get_rates_to_naira` of the source.  `Except.error` is an uncaught
Python fault; `Except.ok` is the returned dictionary. -/
def get_rates_to_naira (w : World) (currencies : Option (List String)) :
    Except String RatesDict :=
  let curs := currencies.getD ["USD", "EUR", "GBP", "JPY", "CAD"]
  match w "NGN" with
  | .connectTimeout =>
    .ok [("error", .str "Connection timed out. The exchange rate service is not responding.")]
  | .readTimeout =>
    .ok [("error", .str "Request timed out. The exchange rate service took too long to respond.")]
  | .statusError code =>
    .ok [("error", .str ("HTTP error " ++ natStr code ++ ": Unable to fetch exchange rates."))]
  | .requestError m => .ok [("error", .str ("Network error: " ++ m))]
  | .otherError m => .ok [("error", .str ("An unexpected error occurred: " ++ m))]
  | .ok data =>
    match pyContains "rates" data with
    | .error f => .error f
    | .ok false => .ok [("error", .str "Failed to fetch rates from exchange service")]
    | .ok true =>
      match pyGetDefault "rates" (Json.obj []) data with
      | .error f => .error f
      | .ok rtbl => ratesLoop rtbl curs []

/-! ## A small regular-expression engine

The source classifies intents with `re.search`.  The patterns it uses
need only: literals, single-character classes, alternation, greedy
`+`/`?`, greedy/lazy `*` over a character class, word boundaries and
capturing groups.  `Rx.run` enumerates the ends of all matches starting
at a position, in Python's backtracking priority order (alternation
left-first, greedy longest-first, lazy shortest-first); `reSearch` scans
start positions left to right, so its first result is exactly
`re.search`'s match. -/

/-- Regular expressions, as the source's patterns need them. -/
inductive Rx where
  | eps
  | lit (cs : List Char)
  | cls (p : Char → Bool)
  | seq (a b : Rx)
  | alt (a b : Rx)
  | starC (p : Char → Bool) (lazy : Bool)
  | plusC (p : Char → Bool)
  | opt (a : Rx)
  | wordB
  | grp (idx : Nat) (a : Rx)

/-- Captured groups: (index, start, stop). -/
abbrev Caps := List (Nat × Nat × Nat)

/-- A word character, for `\b` (ASCII reading of `\w`). -/
def isWordC (c : Char) : Bool := c.isAlphanum || c = '_'

/-- Is there a word boundary at position `i` of `s`? -/
def boundaryAt (s : List Char) (i : Nat) : Bool :=
  let before := if i = 0 then false else isWordC (s.getD (i - 1) ' ')
  let after := isWordC (s.getD i ' ')
  before != after

/-- All ends (with captures) of matches of `r` starting at position `i`
of `s`, in backtracking priority order. -/
def Rx.run : Rx → List Char → Nat → List (Nat × Caps)
  | .eps, _, i => [(i, [])]
  | .lit cs, s, i => if startsList cs (s.drop i) then [(i + cs.length, [])] else []
  | .cls p, s, i =>
    match s.drop i with
    | c :: _ => if p c then [(i + 1, [])] else []
    | [] => []
  | .seq a b, s, i =>
    (Rx.run a s i).flatMap (fun ra =>
      (Rx.run b s ra.1).map (fun rb => (rb.1, ra.2 ++ rb.2)))
  | .alt a b, s, i => Rx.run a s i ++ Rx.run b s i
  | .starC p lz, s, i =>
    let k := ((s.drop i).takeWhile p).length
    let ends := (List.range (k + 1)).map (fun j => (i + j, ([] : Caps)))
    if lz then ends else ends.reverse
  | .plusC p, s, i =>
    let k := ((s.drop i).takeWhile p).length
    ((List.range k).map (fun j => (i + k - j, ([] : Caps))))
  | .opt a, s, i => Rx.run a s i ++ [(i, [])]
  | .wordB, s, i => if boundaryAt s i then [(i, [])] else []
  | .grp g a, s, i => (Rx.run a s i).map (fun ra => (ra.1, ra.2 ++ [(g, i, ra.1)]))

/-- Python `re.search`: captures of the match at the leftmost start
position where one exists. -/
def reSearch (r : Rx) (s : List Char) : Option Caps :=
  (List.range (s.length + 1)).findSome? (fun i =>
    match Rx.run r s i with
    | [] => none
    | (_, caps) :: _ => some caps)

/-- Boolean `re.search` test on a string. -/
def reTest (r : Rx) (s : String) : Bool := (reSearch r s.data).isSome

/-- The text of capture group `g`. -/
def groupStr (s : List Char) (caps : Caps) (g : Nat) : Option (List Char) :=
  (caps.findSome? (fun t => if t.1 = g then some t.2 else none)).map
    (fun p => (s.drop p.1).take (p.2 - p.1))

/-! ## The source's patterns (`src/main.py`) -/

def lits (s : String) : Rx := Rx.lit s.data

def seqL : List Rx → Rx
  | [] => Rx.eps
  | [r] => r
  | r :: t => Rx.seq r (seqL t)

def altL : List Rx → Rx
  | [] => Rx.cls (fun _ => false)
  | [r] => r
  | r :: t => Rx.alt r (altL t)

/-- `\s+` (ASCII reading). -/
def wsP : Rx := Rx.plusC pyWS

def isDigitC (c : Char) : Bool := c.isDigit

def isAlphaC (c : Char) : Bool := c.isAlpha

/-- `.` (anything but a newline). -/
def anyNoNL (c : Char) : Bool := c != '\n'

/-- `(\d+(?:[.,]\d+)?)` as capture group `g`. -/
def amountG (g : Nat) : Rx :=
  Rx.grp g (Rx.seq (Rx.plusC isDigitC)
    (Rx.opt (Rx.seq (Rx.cls (fun c => c = '.' || c = ',')) (Rx.plusC isDigitC))))

/-- `([a-zA-Z]{3})` as capture group `g`. -/
def ccyG (g : Nat) : Rx :=
  Rx.grp g (seqL [Rx.cls isAlphaC, Rx.cls isAlphaC, Rx.cls isAlphaC])

/-- `\b(hi|hello|hey|greetings|good\s*(morning|afternoon|evening)|howdy|sup|yo)\b` -/
def greeting_patterns : Rx :=
  seqL [Rx.wordB,
    altL [lits "hi", lits "hello", lits "hey", lits "greetings",
      seqL [lits "good", Rx.starC pyWS false,
        altL [lits "morning", lits "afternoon", lits "evening"]],
      lits "howdy", lits "sup", lits "yo"],
    Rx.wordB]

/-- `\b(help|assist|what can you do|commands|how to use|guide|instructions|info|about)\b` -/
def help_patterns : Rx :=
  seqL [Rx.wordB,
    altL [lits "help", lits "assist", lits "what can you do", lits "commands",
      lits "how to use", lits "guide", lits "instructions", lits "info", lits "about"],
    Rx.wordB]

/-- `\b(thanks|thank you|thx|appreciate|cheers)\b` -/
def thanks_patterns : Rx :=
  seqL [Rx.wordB,
    altL [lits "thanks", lits "thank you", lits "thx", lits "appreciate", lits "cheers"],
    Rx.wordB]

/-- `convert\s+(\d+(?:[.,]\d+)?)\s+([a-zA-Z]{3})\s+to\s+([a-zA-Z]{3})` -/
def convRx1 : Rx :=
  seqL [lits "convert", wsP, amountG 1, wsP, ccyG 2, wsP, lits "to", wsP, ccyG 3]

/-- `how\s+much\s+is\s+(\d+(?:[.,]\d+)?)\s+([a-zA-Z]{3})\s+in\s+([a-zA-Z]{3})` -/
def convRx2 : Rx :=
  seqL [lits "how", wsP, lits "much", wsP, lits "is", wsP,
    amountG 1, wsP, ccyG 2, wsP, lits "in", wsP, ccyG 3]

/-- `what\s+is\s+(\d+(?:[.,]\d+)?)\s+([a-zA-Z]{3})\s+(?:in|to)\s+([a-zA-Z]{3})` -/
def convRx3 : Rx :=
  seqL [lits "what", wsP, lits "is", wsP,
    amountG 1, wsP, ccyG 2, wsP, Rx.alt (lits "in") (lits "to"), wsP, ccyG 3]

/-- `(\d+(?:[.,]\d+)?)\s+([a-zA-Z]{3})\s+(?:to|in)\s+([a-zA-Z]{3})` -/
def convRx4 : Rx :=
  seqL [amountG 1, wsP, ccyG 2, wsP, Rx.alt (lits "to") (lits "in"), wsP, ccyG 3]

/-- `(?:help|need|want).*?convert(?:ing)?.*?(\d+(?:[.,]\d+)?)\s+([a-zA-Z]{3})` -/
def helpConvRx : Rx :=
  seqL [altL [lits "help", lits "need", lits "want"],
    Rx.starC anyNoNL true, lits "convert", Rx.opt (lits "ing"),
    Rx.starC anyNoNL true, amountG 1, wsP, ccyG 2]

/-- `\b([a-zA-Z]{3})\s+(?:rate|to\s+ngn)` -/
def singleRateRx1 : Rx :=
  seqL [Rx.wordB, ccyG 1, wsP, Rx.alt (lits "rate") (seqL [lits "to", wsP, lits "ngn"])]

/-- `(?:rate|price)\s+(?:of|for)\s+([a-zA-Z]{3})` -/
def singleRateRx2 : Rx :=
  seqL [Rx.alt (lits "rate") (lits "price"), wsP,
    Rx.alt (lits "of") (lits "for"), wsP, ccyG 1]

/-- `\b(rate|rates|exchange)\b` -/
def rateKwRx : Rx :=
  seqL [Rx.wordB, altL [lits "rate", lits "rates", lits "exchange"], Rx.wordB]

/-- `\b(ngn|naira|show|all|list)\b` -/
def aggKwRx : Rx :=
  seqL [Rx.wordB, altL [lits "ngn", lits "naira", lits "show", lits "all", lits "list"], Rx.wordB]

/-- `\b(rates?|exchange)\b` -/
def ratesOptRx : Rx :=
  seqL [Rx.wordB, Rx.alt (Rx.seq (lits "rate") (Rx.opt (lits "s"))) (lits "exchange"), Rx.wordB]

/-- `\b([a-zA-Z]{3})\b` -/
def threeLetterRx : Rx := seqL [Rx.wordB, ccyG 1, Rx.wordB]

/-! ## Intent matchers of `process_message` -/

/-- The four conversion surface forms, tried in the source's order; on a
match, the parsed `(amount, from, to)` (the source's
`float(amount_str.replace(',', '.'))` applied to group 1). -/
def convMatch (t : String) : Option (PyFloat × String × String) :=
  let td := t.data
  (reSearch convRx1 td <|> reSearch convRx2 td <|>
   reSearch convRx3 td <|> reSearch convRx4 td).bind (fun caps =>
    (groupStr td caps 1).bind (fun a =>
      (groupStr td caps 2).bind (fun f =>
        (groupStr td caps 3).map (fun c =>
          (parseAmount a, String.mk f, String.mk c)))))

/-- The `help/need/want … convert` fallback pattern's `(amount, from)`. -/
def helpConvMatch (t : String) : Option (PyFloat × String) :=
  (reSearch helpConvRx t.data).bind (fun caps =>
    (groupStr t.data caps 1).bind (fun a =>
      (groupStr t.data caps 2).map (fun f => (parseAmount a, String.mk f))))

/-- The single-currency rate patterns, in the source's order; the matched
code (group 1, still lowercase). -/
def singleRateMatch (t : String) : Option String :=
  (reSearch singleRateRx1 t.data <|> reSearch singleRateRx2 t.data).bind (fun caps =>
    (groupStr t.data caps 1).map String.mk)

/-! ## The Responder's reply texts (`src/main.py`) -/

def emptyPromptMsg : String :=
  "Please say something! 😊 Try 'convert 10 USD to NGN' or 'help' to see what I can do."

def greetingMsg : String :=
  "Hello! 👋 I'm CurrencyPal, your friendly currency conversion assistant! 💱\n\nI can help you:\n• Convert currencies: 'convert 100 USD to NGN'\n• Check rates: 'show rates to NGN' or 'USD rate'\n• Get help: 'help' or 'what can you do'\n\nWhat would you like to know?"

def helpMsg : String :=
  "🌟 CurrencyPal Help Guide 🌟\n\nHere's what I can do:\n\n💱 **Currency Conversion:**\n• 'convert 50 USD to NGN'\n• 'how much is 100 EUR in GBP'\n• 'what is 25.50 CAD in NGN'\n• Just type: '100 USD to NGN'\n\n📊 **Exchange Rates:**\n• 'show rates to NGN' (multiple currencies)\n• 'USD rate' or 'EUR to NGN rate' (single currency)\n• 'rates' (default: USD, EUR, GBP, JPY, CAD)\n\n💬 **Other:**\n• Say 'hi' for a greeting\n• Say 'help' to see this message\n\nI support 160+ currencies with real-time rates! 🌍"

def thanksMsg : String :=
  "You're very welcome! 😊 Happy to help with currency conversions anytime! 💱\nNeed anything else? Just ask!"

def fallbackMsg : String :=
  "Hmm, I'm not sure I understood that. 🤔\n\nHere's what I can help with:\n• **Convert currency:** 'convert 50 USD to NGN' or just '50 USD to NGN'\n• **Check rates:** 'USD rate' or 'show rates to NGN'\n• **Get help:** Type 'help'\n\nWhat would you like to do?"

/-- Python `"error" in rates` on the returned dict. -/
def hasErrorKey (d : RatesDict) : Bool := d.any (fun kv => kv.1 = "error")

/-- The text interpolated for `rates['error']` (always a string when the
key is present in a value the code builds). -/
def errVal (d : RatesDict) : String :=
  match alookup "error" d with
  | some (.str m) => m
  | _ => ""

/-- The list comprehension `[f"💱 {rates[cur]['formatted']}" for cur in
rates.keys()]`: subscripting a non-dict value with `['formatted']` would
raise, so the result is in `Except`. -/
def fmtLines : RatesDict → Except String (List String)
  | [] => .ok []
  | (_, .entry e) :: t => (fmtLines t).map (fun r => ("💱 " ++ e.formatted) :: r)
  | (_, .str _) :: _ => .error "TypeError: string indices must be integers"

/-! ## The Responder's actions -/

/-- Rule 4's body: call the Rate Client, then branch on `"error" in
result` (the success dictionary never carries that key). -/
def conversionReply (w : World) (amount : PyFloat)
    (from_currency to_currency hint : String) : Except String String := do
  let result ← convert_currency w from_currency to_currency amount
  match result with
  | .error m => pure ("Oops! 😕 " ++ m ++
      "\n\nPlease check:\n• Currency codes are valid (e.g., USD, EUR, NGN)\n• The amount is a positive number\n\n" ++ hint)
  | .ok r => pure ("✅ " ++ r.message)

/-- Rule 5's body (`currency` is already uppercased by the caller). -/
def singleRateReply (w : World) (currency : String) : Except String String := do
  let rates ← get_rates_to_naira w (some [currency])
  if hasErrorKey rates then
    pure ("Sorry, I couldn't fetch the " ++ currency ++ " rate right now. 😕\nError: " ++
      errVal rates ++ "\n\nTry again in a moment or check the currency code.")
  else
    match alookup currency rates with
    | some (.entry e) => pure ("💱 Current rate: " ++ e.formatted)
    | some (.str _) => .error "TypeError: string indices must be integers"
    | none =>
      pure ("Sorry, I couldn't find the rate for " ++ currency ++
        ". 🤔\nMake sure it's a valid 3-letter currency code (e.g., USD, EUR, GBP).")

/-- Rule 6's body. -/
def multiRatesReply (w : World) : Except String String := do
  let rates ← get_rates_to_naira w none
  if hasErrorKey rates then
    pure ("Sorry, couldn't fetch rates right now. 😕\nError: " ++ errVal rates ++
      "\n\nPlease try again in a moment.")
  else do
    let lines ← fmtLines rates
    pure ("Here are current rates to Nigerian Naira 🇳🇬:\n\n" ++ String.intercalate "\n" lines)

/-- Rule 7's body. -/
def generalRatesReply (w : World) : Except String String := do
  let rates ← get_rates_to_naira w none
  if hasErrorKey rates then
    pure "Sorry, couldn't fetch rates right now. 😕\nPlease try again in a moment."
  else do
    let lines ← fmtLines rates
    pure ("Here are current rates to Nigerian Naira 🇳🇬:\n\n" ++ String.intercalate "\n" lines)

/-- The hint text of rule 4's error reply. -/
def standardHint : String := "Try: 'convert 10 USD to NGN'"

/-- The hint text of the `help … convert` sub-branch's error reply. -/
def helpHint (amount : PyFloat) (from_currency : String) : String :=
  "Try: 'convert " ++ pyFloatStr amount ++ " " ++ pyUpper from_currency ++ " to NGN'"

/-- Rules 5–8, reached when no conversion was dispatched. -/
def afterConversionRules (w : World) (t : String) : Except String String :=
  match singleRateMatch t with
  | some c => singleRateReply w (pyUpper c)
  | none =>
    if reTest rateKwRx t && reTest aggKwRx t then multiRatesReply w
    else if reTest ratesOptRx t && !(reTest threeLetterRx t) then generalRatesReply w
    else .ok fallbackMsg

/-- `process_message` of the source (`src/main.py`), as the if-chain the
code writes.  `Except.error` is a Python fault escaping the function. -/
def process_message (w : World) (user_text : String) : Except String String :=
  if user_text = "" then .ok emptyPromptMsg
  else
    let t := pyLower (pyStrip user_text)
    if reTest greeting_patterns t then .ok greetingMsg
    else if reTest help_patterns t then .ok helpMsg
    else if reTest thanks_patterns t then .ok thanksMsg
    else
      match convMatch t with
      | some (a, fc, tc) => conversionReply w a fc tc standardHint
      | none =>
        match helpConvMatch t with
        | some (a, fc) =>
          if pyInStr "naira" t || pyInStr "ngn" t then
            conversionReply w a fc "NGN" (helpHint a fc)
          else afterConversionRules w t
        | none => afterConversionRules w t

/-! ## The ordered-rule reading of the classifier

`Intent` and `classify` restate §4.1 of the specification: a fixed list
of `(matcher, intent)` rules tried in order, first match wins; `applyIntent`
maps the selected intent to its reply.  The factoring theorem below
connects `process_message` to this reading. -/

/-- The intent the classifier selects. -/
inductive Intent where
  | emptyInput
  | greeting
  | helpReq
  | thanksReply
  | conversion (amount : PyFloat) (from_currency to_currency : String)
  | helpConversion (amount : PyFloat) (from_currency : String)
  | singleRate (code : String)
  | multiRates
  | generalRates
  | fallback
deriving DecidableEq

/-- The ordered rule list (greeting, help, thanks, conversion, single
rate, multi rate, general rate), each rule matching on the lowercased,
stripped text. -/
def ruleList : List (String → Option Intent) :=
  [fun t => if reTest greeting_patterns t then some .greeting else none,
   fun t => if reTest help_patterns t then some .helpReq else none,
   fun t => if reTest thanks_patterns t then some .thanksReply else none,
   fun t => (convMatch t).map (fun x => Intent.conversion x.1 x.2.1 x.2.2) <|>
     (helpConvMatch t).bind (fun x =>
       if pyInStr "naira" t || pyInStr "ngn" t then some (Intent.helpConversion x.1 x.2)
       else none),
   fun t => (singleRateMatch t).map Intent.singleRate,
   fun t => if reTest rateKwRx t && reTest aggKwRx t then some .multiRates else none,
   fun t => if reTest ratesOptRx t && !(reTest threeLetterRx t) then some .generalRates else none]

/-- First matching rule wins; nothing matched is the fallback. -/
def classify (user_text : String) : Intent :=
  if user_text = "" then .emptyInput
  else ((ruleList.findSome? (fun r => r (pyLower (pyStrip user_text)))).getD .fallback)

/-- The reply each intent produces. -/
def applyIntent (w : World) : Intent → Except String String
  | .emptyInput => .ok emptyPromptMsg
  | .greeting => .ok greetingMsg
  | .helpReq => .ok helpMsg
  | .thanksReply => .ok thanksMsg
  | .conversion a f c => conversionReply w a f c standardHint
  | .helpConversion a f => conversionReply w a f "NGN" (helpHint a f)
  | .singleRate c => singleRateReply w (pyUpper c)
  | .multiRates => multiRatesReply w
  | .generalRates => generalRatesReply w
  | .fallback => .ok fallbackMsg

/-! ## Shape predicates, projections and concrete worlds used by the theorems -/

/-- Every value of the rates table is a JSON number. -/
def allNumVals (R : List (String × Json)) : Bool :=
  R.all (fun kv => match kv.2 with | Json.num _ => true | _ => false)

/-- A decoded body the post-`try` code of the Rate Client never faults
on: a JSON object whose `rates` member, when present, is an object with
numeric values. -/
def goodJson : Json → Bool
  | .obj fields =>
    match alookup "rates" fields with
    | none => true
    | some (.obj rt) => allNumVals rt
    | some _ => false
  | _ => false

/-- An outcome the Rate Client turns into a value (never a fault): any
exception, or a well-shaped body. -/
def goodOutcome : FetchOutcome → Bool
  | .ok d => goodJson d
  | _ => true

/-- A world whose fetches never make the Rate Client fault. -/
def GoodWorld (w : World) : Prop := ∀ c, goodOutcome (w c) = true

/-- The outcome is one of the upstream failure kinds (timeout, transport
error, non-success status, body that failed to decode). -/
def isFailureOutcome : FetchOutcome → Bool
  | .ok _ => false
  | _ => true

/-- The `rate` field of a conversion result, when a success dictionary
with one was returned. -/
def convRate? : Except String ConvResult → Option PyFloat
  | .ok (.ok r) => some r.rate
  | _ => none

/-- The entry `get_rates_to_naira`'s loop stores for a table `rt` at an
uppercased key, when it stores one. -/
def expectedEntry (rt : List (String × Json)) (k : String) : Option RVal :=
  match alookup k rt with
  | some (Json.num q) =>
    if q.n != 0 then
      if (pfOneDiv q).n = 0 then none
      else some (.entry
        { rate := pyRound (pfOneDiv q) 2
          formatted := get_currency_symbol k ++ "1 = " ++
            get_currency_symbol "NGN" ++ fmtFixed (pfOneDiv q) 2 })
    else none
  | _ => none

/-- A stub world: every base yields `{"rates": {"NGN": 1500}}`. -/
def wStub1500 : World :=
  fun _ => .ok (Json.obj [("rates", Json.obj [("NGN", Json.num ⟨1500, 0⟩)])])

/-- A stub world whose body decodes to the bare JSON number `5`. -/
def wNum5 : World := fun _ => .ok (Json.num ⟨5, 0⟩)

/-- A stub world whose body decodes to the bare JSON number `7`. -/
def wNum7 : World := fun _ => .ok (Json.num ⟨7, 0⟩)

/-- A stub world: `{"rates": {"NGN": 0}}`. -/
def wZeroNGN : World :=
  fun _ => .ok (Json.obj [("rates", Json.obj [("NGN", Json.num ⟨0, 0⟩)])])

/-- A stub world: `{"rates": {"USD": 0.00067}}` (the spec's home-currency
stub). -/
def wUSD67 : World :=
  fun _ => .ok (Json.obj [("rates", Json.obj [("USD", Json.num (pfNorm 67 100000))])])

/-- A stub world: every fetch times out connecting. -/
def wTimeout : World := fun _ => .connectTimeout

/-- A stub world: `{"rates": {"USD": 2}}` (no `NGN` entry). -/
def wMissNGN : World :=
  fun _ => .ok (Json.obj [("rates", Json.obj [("USD", Json.num ⟨2, 0⟩)])])

/-! ## Association-list lemmas -/

theorem any_key_iff_alookup {α : Type} (k : String) (l : List (String × α)) :
    l.any (fun kv => kv.1 = k) = true ↔ ∃ v, alookup k l = some v := by
  induction l with
  | nil => simp [alookup]
  | cons p t ih =>
    constructor
    · intro h
      rw [List.any_cons, Bool.or_eq_true] at h
      rcases h with h | h
      · rw [decide_eq_true_iff] at h
        exact ⟨p.2, by simp [alookup, h]⟩
      · by_cases hk : p.1 = k
        · exact ⟨p.2, by simp [alookup, hk]⟩
        · obtain ⟨v, hv⟩ := ih.mp h
          exact ⟨v, by simpa [alookup, hk] using hv⟩
    · rintro ⟨v, hv⟩
      rw [List.any_cons, Bool.or_eq_true]
      by_cases hk : p.1 = k
      · left
        simpa using hk
      · right
        rw [alookup, if_neg hk] at hv
        exact ih.mpr ⟨v, hv⟩

theorem alookup_none_of_any_false {α : Type} {k : String} {l : List (String × α)}
    (h : l.any (fun kv => kv.1 = k) = false) : alookup k l = none := by
  cases hl : alookup k l with
  | none => rfl
  | some v =>
    rw [(any_key_iff_alookup k l).mpr ⟨v, hl⟩] at h
    cases h

theorem any_false_of_alookup_none {α : Type} {k : String} {l : List (String × α)}
    (h : alookup k l = none) : l.any (fun kv => kv.1 = k) = false := by
  cases hl : l.any (fun kv => kv.1 = k) with
  | false => rfl
  | true =>
    obtain ⟨v, hv⟩ := (any_key_iff_alookup k l).mp hl
    rw [h] at hv
    cases hv

theorem alookup_mem {α : Type} {k : String} {l : List (String × α)} {v : α}
    (h : alookup k l = some v) : (k, v) ∈ l := by
  induction l with
  | nil => cases h
  | cons p t ih =>
    rw [alookup] at h
    by_cases hk : p.1 = k
    · rw [if_pos hk] at h
      injection h with h
      have hp : (k, v) = p := by rw [← hk, ← h]
      rw [hp]
      exact List.mem_cons_self p t
    · rw [if_neg hk] at h
      exact List.mem_cons_of_mem p (ih h)

theorem allNumVals_lookup {rt : List (String × Json)} (hn : allNumVals rt = true)
    {k : String} {u : Json} (h : alookup k rt = some u) : ∃ q, u = Json.num q := by
  have hm := alookup_mem h
  have := List.all_eq_true.mp hn _ hm
  cases u with
  | num q => exact ⟨q, rfl⟩
  | str s => cases this
  | bool b => cases this
  | null => cases this
  | arr xs => cases this
  | obj fs => cases this

theorem alookup_dinsert (k k' : String) (v : RVal) (l : RatesDict) :
    alookup k (dinsert k' v l) = if k' = k then some v else alookup k l := by
  induction l with
  | nil => simp [dinsert, alookup]
  | cons p t ih =>
    by_cases hp : p.1 = k'
    · simp only [dinsert, if_pos hp]
      by_cases hk : k' = k
      · simp [alookup, hk]
      · have hpk : ¬ p.1 = k := by rw [hp]; exact hk
        simp [alookup, hk, hpk]
    · simp only [dinsert, if_neg hp]
      by_cases hk : p.1 = k
      · have hne : ¬ k' = k := by intro e; rw [e] at hp; exact hp hk
        simp [alookup, hk, hne]
      · simp [alookup, hk, ih]

theorem mem_dinsert {p : String × RVal} {k : String} {v : RVal} {l : RatesDict}
    (h : p ∈ dinsert k v l) : p = (k, v) ∨ p ∈ l := by
  induction l with
  | nil =>
    rw [dinsert] at h
    rcases List.mem_singleton.mp h with h
    exact Or.inl h
  | cons q t ih =>
    rw [dinsert] at h
    by_cases hq : q.1 = k
    · rw [if_pos hq] at h
      rcases List.mem_cons.mp h with h | h
      · exact Or.inl h
      · exact Or.inr (List.mem_cons_of_mem q h)
    · rw [if_neg hq] at h
      rcases List.mem_cons.mp h with h | h
      · exact Or.inr (by rw [h]; exact List.mem_cons_self q t)
      · rcases ih h with h | h
        · exact Or.inl h
        · exact Or.inr (List.mem_cons_of_mem q h)

theorem alookup_head {α : Type} (p : String × α) (t : List (String × α)) :
    alookup p.1 (p :: t) = some p.2 := by
  simp [alookup]

/-! ## PyFloat sign lemmas -/

theorem pfNorm_n_nonneg {n : Int} (d : Nat) (h : 0 ≤ n) : 0 ≤ (pfNorm n d).n := by
  unfold pfNorm
  by_cases hd : d = 0
  · simp [hd]
  · simp only [if_neg hd]
    exact Int.ediv_nonneg h (Int.ofNat_nonneg _)

theorem pfNorm_n_ne_zero {n : Int} {d : Nat} (hn : n ≠ 0) (hd : d ≠ 0) :
    (pfNorm n d).n ≠ 0 := by
  unfold pfNorm
  simp only [if_neg hd]
  intro h
  have hg0 : Nat.gcd n.natAbs d ≠ 0 := by
    intro hg
    exact hd (Nat.eq_zero_of_gcd_eq_zero_right hg)
  have hdvd : (Int.ofNat (Nat.gcd n.natAbs d)) ∣ n :=
    Int.dvd_natAbs.mp (Int.ofNat_dvd.mpr (Nat.gcd_dvd_left n.natAbs d))
  have hcancel := Int.ediv_mul_cancel hdvd
  rw [show n.ediv (Int.ofNat (Nat.gcd n.natAbs d)) = n / Int.ofNat (Nat.gcd n.natAbs d) from rfl] at h
  rw [h, zero_mul] at hcancel
  exact hn hcancel.symm

theorem pfNorm_n_zero (d : Nat) : (pfNorm 0 d).n = 0 := by
  unfold pfNorm
  by_cases hd : d = 0
  · simp [hd]
  · simp only [if_neg hd]
    exact Int.zero_ediv _

theorem roundHalfEven_nonneg {q : PyFloat} (h : 0 ≤ q.n) : 0 ≤ roundHalfEven q := by
  unfold roundHalfEven
  dsimp only
  have hf : 0 ≤ q.n.ediv (Int.ofNat q.den) := Int.ediv_nonneg h (Int.ofNat_nonneg _)
  split
  · exact hf
  · split
    · omega
    · split
      · exact hf
      · omega

theorem roundHalfEven_of_zero {q : PyFloat} (h : q.n = 0) : roundHalfEven q = 0 := by
  unfold roundHalfEven
  dsimp only
  rw [h]
  have hz : (0 : Int).ediv (Int.ofNat q.den) = 0 := Int.zero_ediv _
  rw [hz]
  have hden : (0 : Int) < Int.ofNat q.den := by
    simp [PyFloat.den]
  rw [if_pos (by omega : (2 : Int) * (0 - 0 * Int.ofNat q.den) < Int.ofNat q.den)]

theorem pfMul_n_nonneg {a b : PyFloat} (ha : 0 ≤ a.n) (hb : 0 ≤ b.n) :
    0 ≤ (a.mul b).n := by
  unfold PyFloat.mul
  exact pfNorm_n_nonneg _ (Int.mul_nonneg ha hb)

theorem pfMul_n_zero {a : PyFloat} (b : PyFloat) (h : a.n = 0) : (a.mul b).n = 0 := by
  unfold PyFloat.mul
  rw [h, zero_mul]
  exact pfNorm_n_zero _

theorem pyRound_n_nonneg {q : PyFloat} (k : Nat) (h : 0 ≤ q.n) : 0 ≤ (pyRound q k).n := by
  unfold pyRound
  apply pfNorm_n_nonneg
  apply roundHalfEven_nonneg
  apply pfMul_n_nonneg h
  exact Int.ofNat_nonneg _

theorem pyRound_n_zero {q : PyFloat} (k : Nat) (h : q.n = 0) : (pyRound q k).n = 0 := by
  unfold pyRound
  rw [roundHalfEven_of_zero (pfMul_n_zero _ h)]
  exact pfNorm_n_zero _

theorem pfOneDiv_n_ne_zero {q : PyFloat} (h : q.n ≠ 0) : (pfOneDiv q).n ≠ 0 := by
  unfold pfOneDiv
  rcases lt_trichotomy q.n 0 with hlt | heq | hgt
  · rw [if_neg (by omega), if_pos hlt]
    apply pfNorm_n_ne_zero
    · intro he
      have hden : (Int.ofNat q.den) = 0 := by omega
      simp only [PyFloat.den, Int.ofNat_eq_coe] at hden
      omega
    · simpa [Int.natAbs_eq_zero] using h
  · exact absurd heq h
  · rw [if_pos hgt]
    apply pfNorm_n_ne_zero
    · intro he
      simp only [PyFloat.den, Int.ofNat_eq_coe] at he
      omega
    · simpa [Int.natAbs_eq_zero] using h

theorem pfOneDiv_n_nonneg {q : PyFloat} (h : 0 < q.n) : 0 ≤ (pfOneDiv q).n := by
  unfold pfOneDiv
  rw [if_pos h]
  exact pfNorm_n_nonneg _ (Int.ofNat_nonneg _)

/-! ## Character and string lemmas -/

theorem uint32_le_toNat {a b : UInt32} (h : a ≤ b) : a.toNat ≤ b.toNat := by
  simpa [UInt32.le_def, BitVec.le_def] using h

theorem charToNat_ofNat_valid (n : Nat) (h : n.isValidChar) : (Char.ofNat n).toNat = n := by
  rw [Char.ofNat, dif_pos h]
  rfl

theorem toUpper_toNat_eq (c : Char) :
    (Char.toUpper c).toNat = (if c.toNat ≥ 97 ∧ c.toNat ≤ 122 then c.toNat - 32 else c.toNat) := by
  unfold Char.toUpper
  split
  · next h =>
    rw [if_pos h, charToNat_ofNat_valid]
    left
    omega
  · next h => rw [if_neg h]

theorem isLower_toUpper (c : Char) : Char.isLower (Char.toUpper c) = false := by
  have h := toUpper_toNat_eq c
  by_contra hne
  have hl : Char.isLower (Char.toUpper c) = true := by
    cases hx : Char.isLower (Char.toUpper c)
    · exact absurd hx hne
    · rfl
  unfold Char.isLower at hl
  rw [Bool.and_eq_true, decide_eq_true_iff, decide_eq_true_iff] at hl
  have h1 : (97 : UInt32).toNat ≤ (Char.toUpper c).val.toNat := uint32_le_toNat hl.1
  have h2 : (Char.toUpper c).val.toNat ≤ (122 : UInt32).toNat := uint32_le_toNat hl.2
  have e97 : (97 : UInt32).toNat = 97 := rfl
  have e122 : (122 : UInt32).toNat = 122 := rfl
  have htn : (Char.toUpper c).val.toNat = (Char.toUpper c).toNat := rfl
  rw [htn] at h1 h2
  rw [e97] at h1
  rw [e122] at h2
  by_cases hc : c.toNat ≥ 97 ∧ c.toNat ≤ 122
  · rw [if_pos hc] at h
    omega
  · rw [if_neg hc] at h
    rw [h] at h1 h2
    exact hc ⟨h1, h2⟩

theorem toUpper_ne_of_lower (c t : Char) (h97 : 97 ≤ t.toNat) (h122 : t.toNat ≤ 122) :
    Char.toUpper c ≠ t := by
  intro he
  have hfalse := isLower_toUpper c
  rw [he] at hfalse
  unfold Char.isLower at hfalse
  rw [Bool.and_eq_false_iff] at hfalse
  have htn : t.val.toBitVec.toNat = t.toNat := rfl
  rcases hfalse with h | h
  · rw [decide_eq_false_iff_not] at h
    apply h
    show (97 : UInt32) ≤ t.val
    rw [UInt32.le_def, BitVec.le_def]
    show 97 ≤ t.val.toBitVec.toNat
    omega
  · rw [decide_eq_false_iff_not] at h
    apply h
    show t.val ≤ (122 : UInt32)
    rw [UInt32.le_def, BitVec.le_def]
    show t.val.toBitVec.toNat ≤ 122
    omega

/-- `str.upper()` never yields the lowercase reserved key `"error"`. -/
theorem pyUpper_ne_error (s : String) : pyUpper s ≠ "error" := by
  intro h
  have hd : s.data.map Char.toUpper = "error".data := by
    have := congrArg String.data h
    simpa [pyUpper] using this
  cases hs : s.data with
  | nil => rw [hs] at hd; cases hd
  | cons c t =>
    rw [hs] at hd
    rw [List.map_cons] at hd
    have hc : Char.toUpper c = 'e' := by
      have := congrArg (fun l => l.headD ' ') hd
      simpa using this
    exact toUpper_ne_of_lower c 'e' (by decide) (by decide) hc

theorem string_ne_empty_of_length {s : String} (h : 0 < s.length) : s ≠ "" := by
  intro he
  rw [he] at h
  cases h

theorem append_ne_empty_of_left {a : String} (b : String) (h : 0 < a.length) :
    a ++ b ≠ "" := by
  apply string_ne_empty_of_length
  rw [String.length_append]
  omega

/-! ## Rate Client evaluation lemmas -/

theorem convert_failure_error (w : World) (fc tc : String) (a : PyFloat)
    (h : isFailureOutcome (w (pyUpper fc)) = true) :
    ∃ m, convert_currency w fc tc a = Except.ok (ConvResult.error m) := by
  cases hw : w (pyUpper fc) with
  | ok d => rw [hw] at h; cases h
  | connectTimeout =>
    exact ⟨"Connection timed out. The exchange rate service is not responding.",
      by simp [convert_currency, hw]⟩
  | readTimeout =>
    exact ⟨"Request timed out. The exchange rate service took too long to respond.",
      by simp [convert_currency, hw]⟩
  | statusError code =>
    exact ⟨"HTTP error " ++ natStr code ++ ": Unable to fetch exchange rates.",
      by simp [convert_currency, hw]⟩
  | requestError m => exact ⟨"Network error: " ++ m, by simp [convert_currency, hw]⟩
  | otherError m =>
    exact ⟨"An unexpected error occurred: " ++ m, by simp [convert_currency, hw]⟩

theorem rates_failure_error (w : World) (curs : Option (List String))
    (h : isFailureOutcome (w "NGN") = true) :
    ∃ m, get_rates_to_naira w curs = Except.ok [("error", RVal.str m)] := by
  cases hw : w "NGN" with
  | ok d => rw [hw] at h; cases h
  | connectTimeout =>
    exact ⟨"Connection timed out. The exchange rate service is not responding.",
      by simp [get_rates_to_naira, hw]⟩
  | readTimeout =>
    exact ⟨"Request timed out. The exchange rate service took too long to respond.",
      by simp [get_rates_to_naira, hw]⟩
  | statusError code =>
    exact ⟨"HTTP error " ++ natStr code ++ ": Unable to fetch exchange rates.",
      by simp [get_rates_to_naira, hw]⟩
  | requestError m => exact ⟨"Network error: " ++ m, by simp [get_rates_to_naira, hw]⟩
  | otherError m =>
    exact ⟨"An unexpected error occurred: " ++ m, by simp [get_rates_to_naira, hw]⟩

theorem convert_rates_missing (w : World) (fc tc : String) (a : PyFloat)
    (d : List (String × Json)) (hw : w (pyUpper fc) = FetchOutcome.ok (Json.obj d))
    (hmiss : alookup "rates" d = none) :
    convert_currency w fc tc a =
      Except.ok (ConvResult.error ("Invalid response from exchange rate service for " ++ pyUpper fc)) := by
  have hany := any_false_of_alookup_none hmiss
  simp [convert_currency, hw, pyContains, hany]

theorem convert_target_missing (w : World) (fc tc : String) (a : PyFloat)
    (d rt : List (String × Json)) (hw : w (pyUpper fc) = FetchOutcome.ok (Json.obj d))
    (hR : alookup "rates" d = some (Json.obj rt))
    (hmiss : alookup (pyUpper tc) rt = none) :
    convert_currency w fc tc a =
      Except.ok (ConvResult.error ("Currency " ++ pyUpper tc ++ " not found. Please check the currency code.")) := by
  have hany : d.any (fun kv => kv.1 = "rates") = true :=
    (any_key_iff_alookup _ _).mpr ⟨_, hR⟩
  have hany2 := any_false_of_alookup_none hmiss
  simp [convert_currency, hw, pyContains, pyGetItem, hany, hR, hany2]

theorem convert_success_eval (w : World) (fc tc : String) (a : PyFloat)
    (d rt : List (String × Json)) (q : PyFloat)
    (hw : w (pyUpper fc) = FetchOutcome.ok (Json.obj d))
    (hR : alookup "rates" d = some (Json.obj rt))
    (hq : alookup (pyUpper tc) rt = some (Json.num q)) :
    convert_currency w fc tc a = Except.ok (ConvResult.ok
      { from_curr := pyUpper fc
        to_curr := pyUpper tc
        amount := a
        rate := pyRound q 4
        converted := pyRound (a.mul q) 2
        formatted_amount := format_amount a (pyUpper fc)
        formatted_converted := format_amount (a.mul q) (pyUpper tc)
        message := format_amount a (pyUpper fc) ++ " = " ++
          format_amount (a.mul q) (pyUpper tc) ++ " 💱 (Rate: 1 " ++ pyUpper fc ++
          " = " ++ fmtRateStr q ++ " " ++ pyUpper tc ++ ")" }) := by
  have hany : d.any (fun kv => kv.1 = "rates") = true :=
    (any_key_iff_alookup _ _).mpr ⟨_, hR⟩
  have hany2 : rt.any (fun kv => kv.1 = pyUpper tc) = true :=
    (any_key_iff_alookup _ _).mpr ⟨_, hq⟩
  simp [convert_currency, hw, pyContains, pyGetItem, pyMulJ, jNumVal, hany, hR, hany2, hq]

theorem ratesLoop_ok (rt : List (String × Json)) (hn : allNumVals rt = true) :
    ∀ (curs : List String) (acc : RatesDict),
      ∃ m, ratesLoop (Json.obj rt) curs acc = Except.ok m := by
  intro curs
  induction curs with
  | nil => intro acc; exact ⟨acc, rfl⟩
  | cons cur rest ih =>
    intro acc
    rw [ratesLoop]
    simp only [pyContains]
    cases hA : rt.any (fun kv => kv.1 = pyUpper cur) with
    | false => exact ih acc
    | true =>
      obtain ⟨u, hu⟩ := (any_key_iff_alookup _ _).mp hA
      obtain ⟨q, rfl⟩ := allNumVals_lookup hn hu
      simp only [pyGetItem, hu, pyNeZeroJ, pyOneDivJ]
      by_cases hz : q.n = 0
      · simp only [hz, bne_self_eq_false]
        exact ih acc
      · simp only [bne_iff_ne, ne_eq, hz, not_false_eq_true, if_neg hz, if_true, if_false]
        by_cases hr : (pfOneDiv q).n = 0
        · rw [if_pos hr]
          exact ih acc
        · rw [if_neg hr]
          exact ih _

theorem ratesLoop_entries (rtbl : Json) :
    ∀ (curs : List String) (acc m : RatesDict),
      ratesLoop rtbl curs acc = Except.ok m →
      ∀ p ∈ m, p ∈ acc ∨ ∃ c ∈ curs, p.1 = pyUpper c ∧ ∃ e, p.2 = RVal.entry e := by
  intro curs
  induction curs with
  | nil =>
    intro acc m h p hp
    rw [ratesLoop] at h
    injection h with h
    rw [h]
    exact Or.inl hp
  | cons cur rest ih =>
    intro acc m h p hp
    rw [ratesLoop] at h
    cases hC : pyContains (pyUpper cur) rtbl with
    | error f =>
      simp only [hC] at h
      exact Except.noConfusion h
    | ok b =>
      simp only [hC] at h
      cases b with
      | false =>
        rcases ih acc m h p hp with h' | ⟨c, hc, h'⟩
        · exact Or.inl h'
        · exact Or.inr ⟨c, List.mem_cons_of_mem cur hc, h'⟩
      | true =>
        cases hG : pyGetItem (pyUpper cur) rtbl with
        | error f =>
          simp only [hG] at h
          exact Except.noConfusion h
        | ok v =>
          simp only [hG] at h
          by_cases hnz : pyNeZeroJ v = true
          · rw [if_pos hnz] at h
            cases hD : pyOneDivJ v with
            | error f =>
              simp only [hD] at h
              exact Except.noConfusion h
            | ok rate =>
              simp only [hD] at h
              by_cases hr : rate.n = 0
              · rw [if_pos hr] at h
                rcases ih acc m h p hp with h' | ⟨c, hc, h'⟩
                · exact Or.inl h'
                · exact Or.inr ⟨c, List.mem_cons_of_mem cur hc, h'⟩
              · rw [if_neg hr] at h
                rcases ih _ m h p hp with h' | ⟨c, hc, h'⟩
                · rcases mem_dinsert h' with h'' | h''
                  · refine Or.inr ⟨cur, List.mem_cons_self cur rest, ?_, ?_⟩
                    · rw [h'']
                    · rw [h'']
                      exact ⟨_, rfl⟩
                  · exact Or.inl h''
                · exact Or.inr ⟨c, List.mem_cons_of_mem cur hc, h'⟩
          · rw [if_neg hnz] at h
            rcases ih acc m h p hp with h' | ⟨c, hc, h'⟩
            · exact Or.inl h'
            · exact Or.inr ⟨c, List.mem_cons_of_mem cur hc, h'⟩

theorem ratesLoop_lookup (rt : List (String × Json)) (hn : allNumVals rt = true) :
    ∀ (curs : List String) (acc m : RatesDict),
      ratesLoop (Json.obj rt) curs acc = Except.ok m →
      ∀ k, alookup k m =
        (match (if curs.any (fun c => pyUpper c = k) then expectedEntry rt k else none) with
         | some v => some v
         | none => alookup k acc) := by
  intro curs
  induction curs with
  | nil =>
    intro acc m h k
    rw [ratesLoop] at h
    injection h with h
    rw [← h]
    simp
  | cons cur rest ih =>
    intro acc m h k
    rw [ratesLoop] at h
    simp only [pyContains] at h
    cases hA : rt.any (fun kv => kv.1 = pyUpper cur) with
    | false =>
      simp only [hA] at h
      have hnone : alookup (pyUpper cur) rt = none := alookup_none_of_any_false hA
      have ihk := ih acc m h k
      by_cases hk : pyUpper cur = k
      · have hek : expectedEntry rt k = none := by
          rw [expectedEntry, ← hk, hnone]
        have hdk : (decide (pyUpper cur = k)) = true := decide_eq_true hk
        rw [ihk]
        simp only [List.any_cons, hdk, Bool.true_or, if_true, hek]
        cases hrest : rest.any (fun c => pyUpper c = k) <;> simp [hek]
      · have hdk : (decide (pyUpper cur = k)) = false := decide_eq_false hk
        rw [ihk]
        simp only [List.any_cons, hdk, Bool.false_or]
    | true =>
      simp only [hA] at h
      obtain ⟨u, hu⟩ := (any_key_iff_alookup _ _).mp hA
      obtain ⟨q, rfl⟩ := allNumVals_lookup hn hu
      simp only [pyGetItem, hu, pyNeZeroJ, pyOneDivJ] at h
      by_cases hz : q.n = 0
      · simp only [hz, bne_self_eq_false, Bool.false_eq_true, if_false] at h
        have ihk := ih acc m h k
        by_cases hk : pyUpper cur = k
        · have hek : expectedEntry rt k = none := by
            rw [expectedEntry, ← hk, hu]
            simp [hz]
          have hdk : (decide (pyUpper cur = k)) = true := decide_eq_true hk
          rw [ihk]
          simp only [List.any_cons, hdk, Bool.true_or, if_true, hek]
          cases hrest : rest.any (fun c => pyUpper c = k) <;> simp [hek]
        · have hdk : (decide (pyUpper cur = k)) = false := decide_eq_false hk
          rw [ihk]
          simp only [List.any_cons, hdk, Bool.false_or]
      · simp only [bne_iff_ne, ne_eq, hz, not_false_eq_true, if_neg hz, if_true, if_false] at h
        by_cases hr : (pfOneDiv q).n = 0
        · rw [if_pos hr] at h
          have ihk := ih acc m h k
          by_cases hk : pyUpper cur = k
          · have hek : expectedEntry rt k = none := by
              rw [expectedEntry, ← hk, hu]
              simp [hz, hr]
            have hdk : (decide (pyUpper cur = k)) = true := decide_eq_true hk
            rw [ihk]
            simp only [List.any_cons, hdk, Bool.true_or, if_true, hek]
            cases hrest : rest.any (fun c => pyUpper c = k) <;> simp [hek]
          · have hdk : (decide (pyUpper cur = k)) = false := decide_eq_false hk
            rw [ihk]
            simp only [List.any_cons, hdk, Bool.false_or]
        · rw [if_neg hr] at h
          have ihk := ih _ m h k
          by_cases hk : pyUpper cur = k
          · have hek : expectedEntry rt k = some (RVal.entry
              { rate := pyRound (pfOneDiv q) 2
                formatted := get_currency_symbol k ++ "1 = " ++
                  get_currency_symbol "NGN" ++ fmtFixed (pfOneDiv q) 2 }) := by
              rw [expectedEntry, ← hk, hu]
              simp [hz, hr]
            have hdk : (decide (pyUpper cur = k)) = true := decide_eq_true hk
            rw [ihk]
            simp only [List.any_cons, hdk, Bool.true_or, if_true, hek]
            cases hrest : rest.any (fun c => pyUpper c = k) with
            | true => simp [hek]
            | false =>
              simp only [Bool.false_eq_true, if_false]
              rw [alookup_dinsert, if_pos hk, hk]
          · have hdk : (decide (pyUpper cur = k)) = false := decide_eq_false hk
            rw [ihk]
            simp only [List.any_cons, hdk, Bool.false_or]
            cases hrest : rest.any (fun c => pyUpper c = k) with
            | true =>
              simp only [if_true]
              cases he : expectedEntry rt k with
              | some v => simp [he]
              | none =>
                simp only [he]
                rw [alookup_dinsert, if_neg hk]
            | false =>
              simp only [Bool.false_eq_true, if_false]
              rw [alookup_dinsert, if_neg hk]

theorem rates_eval_good (w : World) (curs : Option (List String))
    (d rt : List (String × Json)) (hw : w "NGN" = FetchOutcome.ok (Json.obj d))
    (hR : alookup "rates" d = some (Json.obj rt)) (hn : allNumVals rt = true) :
    ∃ m, get_rates_to_naira w curs = Except.ok m ∧
      ∀ k, alookup k m =
        (if (curs.getD ["USD", "EUR", "GBP", "JPY", "CAD"]).any (fun c => pyUpper c = k)
         then expectedEntry rt k else none) := by
  have hany : d.any (fun kv => kv.1 = "rates") = true :=
    (any_key_iff_alookup _ _).mpr ⟨_, hR⟩
  obtain ⟨m, hm⟩ := ratesLoop_ok rt hn (curs.getD ["USD", "EUR", "GBP", "JPY", "CAD"]) []
  refine ⟨m, ?_, ?_⟩
  · simp only [get_rates_to_naira, hw, pyContains, pyGetDefault, hany, hR, if_true]
    simpa using hm
  · intro k
    have := ratesLoop_lookup rt hn _ _ _ hm k
    rw [this]
    cases hb : (curs.getD ["USD", "EUR", "GBP", "JPY", "CAD"]).any (fun c => pyUpper c = k) with
    | false => simp [alookup]
    | true =>
      simp only [if_true]
      cases he : expectedEntry rt k <;> simp [alookup]

theorem rates_ok_of_good (w : World) (curs : Option (List String))
    (hg : goodOutcome (w "NGN") = true) :
    ∃ m, get_rates_to_naira w curs = Except.ok m ∧
      ((∃ msg, m = [("error", RVal.str msg)]) ∨
       (∀ p ∈ m, ∃ e, p.2 = RVal.entry e)) := by
  cases hw : w "NGN" with
  | connectTimeout =>
    obtain ⟨msg, hm⟩ := rates_failure_error w curs (by rw [hw]; rfl)
    exact ⟨_, hm, Or.inl ⟨msg, rfl⟩⟩
  | readTimeout =>
    obtain ⟨msg, hm⟩ := rates_failure_error w curs (by rw [hw]; rfl)
    exact ⟨_, hm, Or.inl ⟨msg, rfl⟩⟩
  | statusError code =>
    obtain ⟨msg, hm⟩ := rates_failure_error w curs (by rw [hw]; rfl)
    exact ⟨_, hm, Or.inl ⟨msg, rfl⟩⟩
  | requestError msg0 =>
    obtain ⟨msg, hm⟩ := rates_failure_error w curs (by rw [hw]; rfl)
    exact ⟨_, hm, Or.inl ⟨msg, rfl⟩⟩
  | otherError msg0 =>
    obtain ⟨msg, hm⟩ := rates_failure_error w curs (by rw [hw]; rfl)
    exact ⟨_, hm, Or.inl ⟨msg, rfl⟩⟩
  | ok data =>
    rw [hw] at hg
    cases data with
    | num q => cases hg
    | str s => cases hg
    | bool b => cases hg
    | null => cases hg
    | arr xs => cases hg
    | obj fields =>
      cases hR : alookup "rates" fields with
      | none =>
        have hany := any_false_of_alookup_none hR
        refine ⟨[("error", RVal.str "Failed to fetch rates from exchange service")], ?_, ?_⟩
        · simp [get_rates_to_naira, hw, pyContains, hany]
        · exact Or.inl ⟨_, rfl⟩
      | some v =>
        have hgj : goodJson (Json.obj fields) = true := hg
        rw [goodJson, hR] at hgj
        cases v with
        | num q => cases hgj
        | str s => cases hgj
        | bool b => cases hgj
        | null => cases hgj
        | arr xs => cases hgj
        | obj rt =>
          have hn : allNumVals rt = true := hgj
          obtain ⟨m, hm, _⟩ := rates_eval_good w curs fields rt hw hR hn
          refine ⟨m, hm, Or.inr ?_⟩
          intro p hp
          have hany : fields.any (fun kv => kv.1 = "rates") = true :=
            (any_key_iff_alookup _ _).mpr ⟨_, hR⟩
          have hloop : ratesLoop (Json.obj rt) (curs.getD ["USD", "EUR", "GBP", "JPY", "CAD"]) [] = Except.ok m := by
            have := hm
            simp only [get_rates_to_naira, hw, pyContains, pyGetDefault, hany, hR, if_true] at this
            simpa using this
          rcases ratesLoop_entries (Json.obj rt) _ [] m hloop p hp with h' | ⟨c, _, _, he⟩
          · cases h'
          · exact he

theorem convert_ok_of_good (w : World) (fc tc : String) (a : PyFloat)
    (hg : goodOutcome (w (pyUpper fc)) = true) :
    ∃ r, convert_currency w fc tc a = Except.ok r := by
  cases hw : w (pyUpper fc) with
  | connectTimeout =>
    obtain ⟨m, hm⟩ := convert_failure_error w fc tc a (by rw [hw]; rfl)
    exact ⟨_, hm⟩
  | readTimeout =>
    obtain ⟨m, hm⟩ := convert_failure_error w fc tc a (by rw [hw]; rfl)
    exact ⟨_, hm⟩
  | statusError code =>
    obtain ⟨m, hm⟩ := convert_failure_error w fc tc a (by rw [hw]; rfl)
    exact ⟨_, hm⟩
  | requestError msg0 =>
    obtain ⟨m, hm⟩ := convert_failure_error w fc tc a (by rw [hw]; rfl)
    exact ⟨_, hm⟩
  | otherError msg0 =>
    obtain ⟨m, hm⟩ := convert_failure_error w fc tc a (by rw [hw]; rfl)
    exact ⟨_, hm⟩
  | ok data =>
    rw [hw] at hg
    cases data with
    | num q => cases hg
    | str s => cases hg
    | bool b => cases hg
    | null => cases hg
    | arr xs => cases hg
    | obj d =>
      cases hR : alookup "rates" d with
      | none => exact ⟨_, convert_rates_missing w fc tc a d hw hR⟩
      | some v =>
        have hgj : goodJson (Json.obj d) = true := hg
        rw [goodJson, hR] at hgj
        cases v with
        | num q => cases hgj
        | str s => cases hgj
        | bool b => cases hgj
        | null => cases hgj
        | arr xs => cases hgj
        | obj rt =>
          have hn : allNumVals rt = true := hgj
          cases hT : alookup (pyUpper tc) rt with
          | none => exact ⟨_, convert_target_missing w fc tc a d rt hw hR hT⟩
          | some u =>
            obtain ⟨q, rfl⟩ := allNumVals_lookup hn hT
            exact ⟨_, convert_success_eval w fc tc a d rt q hw hR hT⟩

theorem fmtLines_ok {m : RatesDict} (h : ∀ p ∈ m, ∃ e, p.2 = RVal.entry e) :
    ∃ ls, fmtLines m = Except.ok ls := by
  induction m with
  | nil => exact ⟨[], rfl⟩
  | cons p t ih =>
    obtain ⟨e, he⟩ := h p (List.mem_cons_self p t)
    obtain ⟨ls, hls⟩ := ih (fun p' hp' => h p' (List.mem_cons_of_mem p hp'))
    obtain ⟨k, v⟩ := p
    cases v with
    | str s => cases he
    | entry e' =>
      rw [fmtLines, hls]
      exact ⟨_, rfl⟩

theorem conversionReply_ok (w : World) (a : PyFloat) (fc tc hint : String)
    (hg : goodOutcome (w (pyUpper fc)) = true) :
    ∃ r, conversionReply w a fc tc hint = Except.ok r ∧ r ≠ "" := by
  obtain ⟨res, hres⟩ := convert_ok_of_good w fc tc a hg
  cases res with
  | error m =>
    refine ⟨"Oops! 😕 " ++ m ++
      "\n\nPlease check:\n• Currency codes are valid (e.g., USD, EUR, NGN)\n• The amount is a positive number\n\n" ++ hint,
      ?_, ?_⟩
    · simp [conversionReply, hres, bind, Except.bind, pure, Except.pure]
    · apply string_ne_empty_of_length
      simp only [String.length_append]
      have hpos : 0 < ("Oops! 😕 " : String).length := by decide
      omega
  | ok r =>
    refine ⟨"✅ " ++ r.message, ?_, ?_⟩
    · simp [conversionReply, hres, bind, Except.bind, pure, Except.pure]
    · apply string_ne_empty_of_length
      simp only [String.length_append]
      have hpos : 0 < ("✅ " : String).length := by decide
      omega

theorem singleRateReply_ok (w : World) (c : String)
    (hg : goodOutcome (w "NGN") = true) :
    ∃ r, singleRateReply w c = Except.ok r ∧ r ≠ "" := by
  obtain ⟨m, hm, hshape⟩ := rates_ok_of_good w (some [c]) hg
  by_cases hek : hasErrorKey m = true
  · refine ⟨"Sorry, I couldn't fetch the " ++ c ++ " rate right now. 😕\nError: " ++
      errVal m ++ "\n\nTry again in a moment or check the currency code.", ?_, ?_⟩
    · simp [singleRateReply, hm, bind, Except.bind, pure, Except.pure, hek]
    · apply string_ne_empty_of_length
      simp only [String.length_append]
      have hpos : 0 < ("Sorry, I couldn't fetch the " : String).length := by decide
      omega
  · have hentries : ∀ p ∈ m, ∃ e, p.2 = RVal.entry e := by
      rcases hshape with ⟨msg, rfl⟩ | h
      · exact absurd (by simp [hasErrorKey]) hek
      · exact h
    have hekf : hasErrorKey m = false := by
      cases hx : hasErrorKey m
      · rfl
      · exact absurd hx hek
    cases halc : alookup c m with
    | none =>
      refine ⟨"Sorry, I couldn't find the rate for " ++ c ++
        ". 🤔\nMake sure it's a valid 3-letter currency code (e.g., USD, EUR, GBP).", ?_, ?_⟩
      · simp [singleRateReply, hm, bind, Except.bind, pure, Except.pure, hekf, halc]
      · apply string_ne_empty_of_length
        simp only [String.length_append]
        have hpos : 0 < ("Sorry, I couldn't find the rate for " : String).length := by decide
        omega
    | some v =>
      obtain ⟨e, he⟩ := hentries (c, v) (alookup_mem halc)
      rw [show v = RVal.entry e from he] at halc
      refine ⟨"💱 Current rate: " ++ e.formatted, ?_, ?_⟩
      · simp [singleRateReply, hm, bind, Except.bind, pure, Except.pure, hekf, halc]
      · apply string_ne_empty_of_length
        simp only [String.length_append]
        have hpos : 0 < ("💱 Current rate: " : String).length := by decide
        omega

theorem multiRatesReply_ok (w : World) (hg : goodOutcome (w "NGN") = true) :
    ∃ r, multiRatesReply w = Except.ok r ∧ r ≠ "" := by
  obtain ⟨m, hm, hshape⟩ := rates_ok_of_good w none hg
  by_cases hek : hasErrorKey m = true
  · refine ⟨"Sorry, couldn't fetch rates right now. 😕\nError: " ++ errVal m ++
      "\n\nPlease try again in a moment.", ?_, ?_⟩
    · simp [multiRatesReply, hm, bind, Except.bind, pure, Except.pure, hek]
    · apply string_ne_empty_of_length
      simp only [String.length_append]
      have hpos : 0 < ("Sorry, couldn't fetch rates right now. 😕\nError: " : String).length := by decide
      omega
  · have hentries : ∀ p ∈ m, ∃ e, p.2 = RVal.entry e := by
      rcases hshape with ⟨msg, rfl⟩ | h
      · exact absurd (by simp [hasErrorKey]) hek
      · exact h
    have hekf : hasErrorKey m = false := by
      cases hx : hasErrorKey m
      · rfl
      · exact absurd hx hek
    obtain ⟨ls, hls⟩ := fmtLines_ok hentries
    refine ⟨"Here are current rates to Nigerian Naira 🇳🇬:\n\n" ++ String.intercalate "\n" ls, ?_, ?_⟩
    · simp [multiRatesReply, hm, bind, Except.bind, pure, Except.pure, hekf, hls]
    · apply string_ne_empty_of_length
      simp only [String.length_append]
      have hpos : 0 < ("Here are current rates to Nigerian Naira 🇳🇬:\n\n" : String).length := by decide
      omega

theorem generalRatesReply_ok (w : World) (hg : goodOutcome (w "NGN") = true) :
    ∃ r, generalRatesReply w = Except.ok r ∧ r ≠ "" := by
  obtain ⟨m, hm, hshape⟩ := rates_ok_of_good w none hg
  by_cases hek : hasErrorKey m = true
  · refine ⟨"Sorry, couldn't fetch rates right now. 😕\nPlease try again in a moment.", ?_, ?_⟩
    · simp [generalRatesReply, hm, bind, Except.bind, pure, Except.pure, hek]
    · decide
  · have hentries : ∀ p ∈ m, ∃ e, p.2 = RVal.entry e := by
      rcases hshape with ⟨msg, rfl⟩ | h
      · exact absurd (by simp [hasErrorKey]) hek
      · exact h
    have hekf : hasErrorKey m = false := by
      cases hx : hasErrorKey m
      · rfl
      · exact absurd hx hek
    obtain ⟨ls, hls⟩ := fmtLines_ok hentries
    refine ⟨"Here are current rates to Nigerian Naira 🇳🇬:\n\n" ++ String.intercalate "\n" ls, ?_, ?_⟩
    · simp [generalRatesReply, hm, bind, Except.bind, pure, Except.pure, hekf, hls]
    · apply string_ne_empty_of_length
      simp only [String.length_append]
      have hpos : 0 < ("Here are current rates to Nigerian Naira 🇳🇬:\n\n" : String).length := by decide
      omega

theorem afterConversionRules_factors (w : World) (t : String) :
    afterConversionRules w t = applyIntent w
      ((List.findSome? (fun r => r t)
        [fun t => (singleRateMatch t).map Intent.singleRate,
         fun t => if reTest rateKwRx t && reTest aggKwRx t then some Intent.multiRates else none,
         fun t => if reTest ratesOptRx t && !(reTest threeLetterRx t) then some Intent.generalRates else none]).getD
        Intent.fallback) := by
  rw [afterConversionRules]
  simp only [List.findSome?_cons]
  cases hsr : singleRateMatch t with
  | some c => simp [applyIntent]
  | none =>
    simp only [Option.map_none']
    by_cases h6 : reTest rateKwRx t && reTest aggKwRx t
    · simp [h6, applyIntent]
    · simp only [h6, if_false, Bool.false_eq_true]
      by_cases h7 : reTest ratesOptRx t && !(reTest threeLetterRx t)
      · simp [h7, applyIntent]
      · simp [h7, applyIntent]

theorem process_message_factors (w : World) (s : String) :
    process_message w s = applyIntent w (classify s) := by
  unfold process_message classify
  by_cases h0 : s = ""
  · rw [if_pos h0, if_pos h0]
    rfl
  · rw [if_neg h0, if_neg h0]
    simp only [ruleList, List.findSome?_cons]
    by_cases hg : reTest greeting_patterns (pyLower (pyStrip s))
    · simp [hg, applyIntent]
    · simp only [hg, if_false, Bool.false_eq_true]
      by_cases hh : reTest help_patterns (pyLower (pyStrip s))
      · simp [hh, applyIntent]
      · simp only [hh, if_false, Bool.false_eq_true]
        by_cases ht : reTest thanks_patterns (pyLower (pyStrip s))
        · simp [ht, applyIntent]
        · simp only [ht, if_false, Bool.false_eq_true]
          cases hcm : convMatch (pyLower (pyStrip s)) with
          | some x =>
            obtain ⟨a, fc, tc⟩ := x
            simp [hcm, applyIntent]
          | none =>
            simp only [hcm, Option.map_none']
            cases hhm : helpConvMatch (pyLower (pyStrip s)) with
            | some y =>
              obtain ⟨a, fc⟩ := y
              by_cases hnr : (pyInStr "naira" (pyLower (pyStrip s)) ||
                  pyInStr "ngn" (pyLower (pyStrip s))) = true
              · simp [hhm, hnr, applyIntent]
              · simp only [hhm, hnr, if_false, Bool.false_eq_true]
                have := afterConversionRules_factors w (pyLower (pyStrip s))
                simp only [List.findSome?_cons] at this
                simpa using this
            | none =>
              simp only [hhm]
              have := afterConversionRules_factors w (pyLower (pyStrip s))
              simp only [List.findSome?_cons] at this
              simpa using this

/-! ## The claims -/

/-- C1 (counterexample): the claim "no input makes `process_message`
raise" fails: against an upstream whose body decodes to the bare JSON
number `5`, the input `"convert 10 usd to ngn"` reaches
`"rates" not in data` and an uncaught `TypeError` escapes to the
caller. -/
theorem c1_counterexample :
    process_message wNum5 "convert 10 usd to ngn" =
      Except.error "TypeError: argument of type is not iterable" := rfl

/-- C1 (amended): for every input string and every upstream world on
which the Rate Client never faults (every completed body is a JSON
object whose `rates` member, when present, is an object of numbers),
`process_message` returns a non-empty string: upstream errors are
rendered as text replies, never propagated. -/
theorem c1_amended (w : World) (s : String) (hw : GoodWorld w) :
    ∃ r, process_message w s = Except.ok r ∧ r ≠ "" := by
  rw [process_message_factors]
  cases hcl : classify s with
  | emptyInput => exact ⟨emptyPromptMsg, rfl, by decide⟩
  | greeting => exact ⟨greetingMsg, rfl, by decide⟩
  | helpReq => exact ⟨helpMsg, rfl, by decide⟩
  | thanksReply => exact ⟨thanksMsg, rfl, by decide⟩
  | conversion a fc tc => exact conversionReply_ok w a fc tc standardHint (hw _)
  | helpConversion a fc => exact conversionReply_ok w a fc "NGN" (helpHint a fc) (hw _)
  | singleRate c => exact singleRateReply_ok w (pyUpper c) (hw "NGN")
  | multiRates => exact multiRatesReply_ok w (hw "NGN")
  | generalRates => exact generalRatesReply_ok w (hw "NGN")
  | fallback => exact ⟨fallbackMsg, rfl, by decide⟩

/-- C1 (witness): the amended theorem applied to the stub world and the
input `"hello"`. -/
theorem c1_witness : ∃ r, process_message wStub1500 "hello" = Except.ok r ∧ r ≠ "" :=
  c1_amended wStub1500 "hello" (fun _ => rfl)

/-- C2 (counterexample): the claim "every upstream behaviour, including a
malformed or unexpected response body, yields a structured error value
and never an unhandled fault" fails: a body decoding to the bare JSON
number `7` makes `get_rates_to_naira` raise an uncaught `TypeError` at
`"rates" not in data`. -/
theorem c2_counterexample :
    get_rates_to_naira wNum7 (some ["USD"]) =
      Except.error "TypeError: argument of type is not iterable" := rfl

/-- C2 (amended): every transport-level failure (timeout, connection
error, non-success HTTP status) and every body that fails to decode is
converted by both Rate Client operations into a `{error: text}` value;
and on any well-shaped body (a JSON object whose `rates` member, when
present, is an object of numbers) neither operation faults.  A
valid-JSON body that is not an object can instead raise an uncaught
`TypeError`. -/
theorem c2_amended (w : World) (fc tc : String) (a : PyFloat) (curs : Option (List String)) :
    (goodOutcome (w (pyUpper fc)) = true → ∃ r, convert_currency w fc tc a = Except.ok r) ∧
    (goodOutcome (w "NGN") = true → ∃ m, get_rates_to_naira w curs = Except.ok m) ∧
    (isFailureOutcome (w (pyUpper fc)) = true →
      ∃ m, convert_currency w fc tc a = Except.ok (ConvResult.error m)) ∧
    (isFailureOutcome (w "NGN") = true →
      ∃ m, get_rates_to_naira w curs = Except.ok [("error", RVal.str m)]) := by
  refine ⟨fun h => convert_ok_of_good w fc tc a h, fun h => ?_,
    fun h => convert_failure_error w fc tc a h, fun h => rates_failure_error w curs h⟩
  obtain ⟨m, hm, _⟩ := rates_ok_of_good w curs h
  exact ⟨m, hm⟩

/-- C2 (witness): the amended theorem applied to a world whose fetches
all time out: both operations return the timeout error value. -/
theorem c2_witness :
    (∃ m, convert_currency wTimeout "usd" "ngn" ⟨5, 0⟩ = Except.ok (ConvResult.error m)) ∧
    (∃ m, get_rates_to_naira wTimeout (some ["USD"]) = Except.ok [("error", RVal.str m)]) :=
  ⟨(c2_amended wTimeout "usd" "ngn" ⟨5, 0⟩ (some ["USD"])).2.2.1 rfl,
   (c2_amended wTimeout "usd" "ngn" ⟨5, 0⟩ (some ["USD"])).2.2.2 rfl⟩

/-- C3: when the upstream response contains a rates table including the
target code (with numeric rate `q`), `convert_currency` returns a
success dictionary whose `rate` is `q` rounded to 4 decimal places,
whose `converted` is `amount * q` rounded to 2 decimal places, and whose
human-readable `message` is non-empty. -/
theorem c3_theorem (w : World) (fc tc : String) (a : PyFloat)
    (d rt : List (String × Json)) (q : PyFloat)
    (hw : w (pyUpper fc) = FetchOutcome.ok (Json.obj d))
    (hR : alookup "rates" d = some (Json.obj rt))
    (hq : alookup (pyUpper tc) rt = some (Json.num q)) :
    ∃ r, convert_currency w fc tc a = Except.ok (ConvResult.ok r) ∧
      r.rate = pyRound q 4 ∧ r.converted = pyRound (a.mul q) 2 ∧ r.message ≠ "" := by
  refine ⟨_, convert_success_eval w fc tc a d rt q hw hR hq, rfl, rfl, ?_⟩
  apply string_ne_empty_of_length
  simp only [String.length_append]
  have hpos : 0 < (" 💱 (Rate: 1 " : String).length := by decide
  omega

/-- C3 (witness): the spec's example: converting 100 USD with a stubbed
upstream `{"rates": {"NGN": 1500}}` yields `converted == 150000.00` and
`rate == 1500.0`. -/
theorem c3_witness :
    ∃ r, convert_currency wStub1500 "USD" "NGN" (pfOfNat 100) = Except.ok (ConvResult.ok r) ∧
      r.rate = ⟨1500, 0⟩ ∧ r.converted = ⟨150000, 0⟩ := by
  obtain ⟨r, hr, hrate, hconv, _⟩ :=
    c3_theorem wStub1500 "USD" "NGN" (pfOfNat 100)
      [("rates", Json.obj [("NGN", Json.num ⟨1500, 0⟩)])]
      [("NGN", Json.num ⟨1500, 0⟩)] ⟨1500, 0⟩ rfl rfl rfl
  exact ⟨r, hr, hrate.trans (by decide), hconv.trans (by decide)⟩

theorem rates_loop_extract (w : World) (curs : Option (List String))
    (d rt : List (String × Json)) (m : RatesDict)
    (hw : w "NGN" = FetchOutcome.ok (Json.obj d))
    (hR : alookup "rates" d = some (Json.obj rt))
    (hm : get_rates_to_naira w curs = Except.ok m) :
    ratesLoop (Json.obj rt) (curs.getD ["USD", "EUR", "GBP", "JPY", "CAD"]) [] = Except.ok m := by
  have hany : d.any (fun kv => kv.1 = "rates") = true :=
    (any_key_iff_alookup _ _).mpr ⟨_, hR⟩
  simp only [get_rates_to_naira, hw, pyContains, pyGetDefault, hany, hR, if_true] at hm
  simpa using hm

/-- C4: for every requested code, `get_rates_to_naira` includes an entry
exactly when the code (uppercased) is present in the upstream table with
a nonzero rate; such an entry stores `round(1/q, 2)` and the formatted
line built from the currency symbols; absent or zero-rate codes are
silently omitted; and every key of the result comes from a requested
code. -/
theorem c4_theorem (w : World) (curs : List String) (d rt : List (String × Json))
    (hw : w "NGN" = FetchOutcome.ok (Json.obj d))
    (hR : alookup "rates" d = some (Json.obj rt))
    (hn : allNumVals rt = true) :
    ∃ m, get_rates_to_naira w (some curs) = Except.ok m ∧
      (∀ c ∈ curs,
        (∀ q, alookup (pyUpper c) rt = some (Json.num q) → q.n ≠ 0 →
          alookup (pyUpper c) m = some (RVal.entry
            { rate := pyRound (pfOneDiv q) 2
              formatted := get_currency_symbol (pyUpper c) ++ "1 = " ++
                get_currency_symbol "NGN" ++ fmtFixed (pfOneDiv q) 2 })) ∧
        (alookup (pyUpper c) rt = none → alookup (pyUpper c) m = none) ∧
        (∀ q, alookup (pyUpper c) rt = some (Json.num q) → q.n = 0 →
          alookup (pyUpper c) m = none)) ∧
      (∀ p ∈ m, ∃ c ∈ curs, p.1 = pyUpper c) := by
  obtain ⟨m, hm, hlook⟩ := rates_eval_good w (some curs) d rt hw hR hn
  refine ⟨m, hm, ?_, ?_⟩
  · intro c hc
    have hany : curs.any (fun c' => pyUpper c' = pyUpper c) = true :=
      List.any_eq_true.mpr ⟨c, hc, by simp⟩
    have hl := hlook (pyUpper c)
    simp only [Option.getD_some, hany, if_true] at hl
    refine ⟨?_, ?_, ?_⟩
    · intro q hq hqz
      rw [hl]
      simp only [expectedEntry, hq]
      have hb : (q.n != 0) = true := by simpa using hqz
      simp [hb, pfOneDiv_n_ne_zero hqz]
    · intro hq
      rw [hl]
      simp only [expectedEntry, hq]
    · intro q hq hqz
      rw [hl]
      simp only [expectedEntry, hq]
      have hb : (q.n != 0) = false := by simpa using hqz
      simp [hb]
  · intro p hp
    have hloop := rates_loop_extract w (some curs) d rt m hw hR hm
    simp only [Option.getD_some] at hloop
    rcases ratesLoop_entries (Json.obj rt) curs [] m hloop p hp with h' | ⟨c, hc, hk, _⟩
    · cases h'
    · exact ⟨c, hc, hk⟩

/-- C4 (witness): the spec's two examples: `ratesToBase(["USD"])` against
`{"rates": {"USD": 0.00067}}` yields the entry `round(1/0.00067, 2) =
1492.54` with its formatted line, and `ratesToBase(["XXX"])` with `XXX`
absent yields an empty mapping, not an error. -/
theorem c4_witness :
    (∃ m, get_rates_to_naira wUSD67 (some ["USD"]) = Except.ok m ∧
      alookup "USD" m = some (RVal.entry ⟨⟨74627, 49⟩, "$1 = ₦1,492.54"⟩)) ∧
    get_rates_to_naira wUSD67 (some ["XXX"]) = Except.ok [] := by
  constructor
  · obtain ⟨m, hm, hc, _⟩ := c4_theorem wUSD67 ["USD"]
      [("rates", Json.obj [("USD", Json.num (pfNorm 67 100000))])]
      [("USD", Json.num (pfNorm 67 100000))] rfl rfl rfl
    have h := (hc "USD" (by simp)).1 (pfNorm 67 100000) rfl (by decide)
    have h' : alookup "USD" m = some (RVal.entry
      { rate := pyRound (pfOneDiv (pfNorm 67 100000)) 2
        formatted := get_currency_symbol (pyUpper "USD") ++ "1 = " ++
          get_currency_symbol "NGN" ++ fmtFixed (pfOneDiv (pfNorm 67 100000)) 2 }) := h
    exact ⟨m, hm, h'.trans (by decide)⟩
  · rfl

/-- C5 (counterexample): the claim "any rate field present is strictly
positive; a zero upstream rate leads to absence or an explicit error"
fails for `convert_currency`: with upstream `{"rates": {"NGN": 0}}`,
converting 100 USD to NGN returns a success dictionary whose `rate`
field is present and equal to `0`. -/
theorem c5_counterexample :
    convRate? (convert_currency wZeroNGN "usd" "ngn" (pfOfNat 100)) = some ⟨0, 0⟩ := rfl

/-- C5 (amended): rate fields are never fabricated.  Every entry of a
`get_rates_to_naira` result comes from a requested code present upstream
with a nonzero rate `q` and stores `round(1/q, 2)`, which is nonnegative
whenever `q > 0` (so positivity can fail only for a negative upstream
rate, or by rounding to zero).  `convert_currency` stores `round(q, 4)`
of the upstream rate with no sign or zero guarantee: the rounded rate is
nonnegative when `q ≥ 0` and zero when `q = 0` (a zero upstream rate
yields a success, not an error). -/
theorem c5_amended :
    (∀ (w : World) (curs : List String) (d rt : List (String × Json)),
      w "NGN" = FetchOutcome.ok (Json.obj d) →
      alookup "rates" d = some (Json.obj rt) →
      allNumVals rt = true →
      ∀ m, get_rates_to_naira w (some curs) = Except.ok m →
      ∀ k e, alookup k m = some (RVal.entry e) →
        ∃ q, alookup k rt = some (Json.num q) ∧ q.n ≠ 0 ∧
          e.rate = pyRound (pfOneDiv q) 2 ∧ (0 < q.n → 0 ≤ e.rate.n)) ∧
    (∀ (w : World) (fc tc : String) (a : PyFloat) (d rt : List (String × Json)) (q : PyFloat),
      w (pyUpper fc) = FetchOutcome.ok (Json.obj d) →
      alookup "rates" d = some (Json.obj rt) →
      alookup (pyUpper tc) rt = some (Json.num q) →
      ∃ r, convert_currency w fc tc a = Except.ok (ConvResult.ok r) ∧
        r.rate = pyRound q 4 ∧ (0 ≤ q.n → 0 ≤ r.rate.n) ∧ (q.n = 0 → r.rate.n = 0)) := by
  constructor
  · intro w curs d rt hw hR hn m hm k e he
    obtain ⟨m', hm', hlook⟩ := rates_eval_good w (some curs) d rt hw hR hn
    have hmm : m' = m := by
      rw [hm] at hm'
      injection hm' with h
      rw [h]
    rw [hmm] at hlook
    have hl := hlook k
    rw [he] at hl
    by_cases hany : (curs.any fun c => pyUpper c = k) = true
    · simp only [Option.getD_some, hany, if_true] at hl
      cases hq : alookup k rt with
      | none =>
        simp only [expectedEntry, hq] at hl
        exact Option.noConfusion hl
      | some u =>
        cases u with
        | num q =>
          simp only [expectedEntry, hq] at hl
          by_cases hz : (q.n != 0) = true
          · rw [if_pos hz] at hl
            by_cases hr : (pfOneDiv q).n = 0
            · rw [if_pos hr] at hl
              exact Option.noConfusion hl
            · rw [if_neg hr] at hl
              injection hl with hl
              injection hl with hl
              have hqz : q.n ≠ 0 := by simpa using hz
              subst hl
              refine ⟨q, rfl, hqz, rfl, ?_⟩
              intro hpos
              exact pyRound_n_nonneg 2 (pfOneDiv_n_nonneg hpos)
          · rw [if_neg hz] at hl
            exact Option.noConfusion hl
        | str s =>
          simp only [expectedEntry, hq] at hl
          exact Option.noConfusion hl
        | bool b =>
          simp only [expectedEntry, hq] at hl
          exact Option.noConfusion hl
        | null =>
          simp only [expectedEntry, hq] at hl
          exact Option.noConfusion hl
        | arr xs =>
          simp only [expectedEntry, hq] at hl
          exact Option.noConfusion hl
        | obj fs =>
          simp only [expectedEntry, hq] at hl
          exact Option.noConfusion hl
    · simp only [Option.getD_some] at hl
      rw [if_neg hany] at hl
      exact Option.noConfusion hl
  · intro w fc tc a d rt q hw hR hq
    refine ⟨_, convert_success_eval w fc tc a d rt q hw hR hq, rfl, ?_, ?_⟩
    · intro hpos
      exact pyRound_n_nonneg 4 hpos
    · intro hz
      exact pyRound_n_zero 4 hz

/-- C5 (witness): the amended theorem at the stub `{"rates": {"USD":
0.00067}}`: the USD entry derives from the nonzero upstream rate and its
rounded inverse is nonnegative; and at `{"rates": {"NGN": 0}}`:
`convert_currency` succeeds with rate field `round(0, 4) = 0`. -/
theorem c5_witness :
    (∃ q, alookup "USD" [("USD", Json.num (pfNorm 67 100000))] = some (Json.num q) ∧
      q.n ≠ 0 ∧
      (RateEntry.mk ⟨74627, 49⟩ "$1 = ₦1,492.54").rate = pyRound (pfOneDiv q) 2 ∧
      (0 < q.n → 0 ≤ (RateEntry.mk ⟨74627, 49⟩ "$1 = ₦1,492.54").rate.n)) ∧
    (∃ r, convert_currency wZeroNGN "usd" "ngn" (pfOfNat 100) = Except.ok (ConvResult.ok r) ∧
      r.rate = pyRound ⟨0, 0⟩ 4 ∧ (0 ≤ (0 : Int) → 0 ≤ r.rate.n) ∧ ((0 : Int) = 0 → r.rate.n = 0)) :=
  ⟨c5_amended.1 wUSD67 ["USD"] [("rates", Json.obj [("USD", Json.num (pfNorm 67 100000))])]
      [("USD", Json.num (pfNorm 67 100000))] rfl rfl rfl
      [("USD", RVal.entry ⟨⟨74627, 49⟩, "$1 = ₦1,492.54"⟩)] rfl
      "USD" ⟨⟨74627, 49⟩, "$1 = ₦1,492.54"⟩ rfl,
   c5_amended.2 wZeroNGN "usd" "ngn" (pfOfNat 100)
      [("rates", Json.obj [("NGN", Json.num ⟨0, 0⟩)])]
      [("NGN", Json.num ⟨0, 0⟩)] ⟨0, 0⟩ rfl rfl rfl⟩

/-- C6 (counterexample): the claim "`convert_currency` returns a
not-found error value, never a thrown fault, whenever the completed
response lacks a rates table" fails: a body decoding to the bare JSON
number `5` lacks a rates table, yet the call raises an uncaught
`TypeError` instead of returning an error value. -/
theorem c6_counterexample :
    convert_currency wNum5 "eur" "ngn" ⟨1, 0⟩ =
      Except.error "TypeError: argument of type is not iterable" := rfl

/-- C6 (amended): when the completed body is a JSON object whose `rates`
member (when present) is an object of numeric rates, `convert_currency`
returns an error dictionary — never a thrown fault — exactly when the
body lacks a rates table or the table lacks the target code. -/
theorem c6_amended (w : World) (fc tc : String) (a : PyFloat)
    (d : List (String × Json))
    (hw : w (pyUpper fc) = FetchOutcome.ok (Json.obj d))
    (hg : goodJson (Json.obj d) = true) :
    (∃ m, convert_currency w fc tc a = Except.ok (ConvResult.error m)) ↔
      (alookup "rates" d = none ∨
       ∃ rt, alookup "rates" d = some (Json.obj rt) ∧ alookup (pyUpper tc) rt = none) := by
  cases hR : alookup "rates" d with
  | none =>
    rw [convert_rates_missing w fc tc a d hw hR]
    constructor
    · intro
      exact Or.inl rfl
    · intro
      exact ⟨_, rfl⟩
  | some v =>
    rw [goodJson, hR] at hg
    cases v with
    | num q => cases hg
    | str s => cases hg
    | bool b => cases hg
    | null => cases hg
    | arr xs => cases hg
    | obj rt =>
      have hn : allNumVals rt = true := hg
      cases hT : alookup (pyUpper tc) rt with
      | none =>
        rw [convert_target_missing w fc tc a d rt hw hR hT]
        constructor
        · intro
          exact Or.inr ⟨rt, rfl, hT⟩
        · intro
          exact ⟨_, rfl⟩
      | some u =>
        obtain ⟨q, rfl⟩ := allNumVals_lookup hn hT
        rw [convert_success_eval w fc tc a d rt q hw hR hT]
        constructor
        · rintro ⟨m, hm⟩
          exact absurd hm (by simp)
        · rintro (h | ⟨rt', hrt', hT'⟩)
          · exact Option.noConfusion h
          · injection hrt' with hrr
            injection hrr with hrr
            rw [← hrr] at hT'
            exact Option.noConfusion (hT'.symm.trans hT)

/-- C6 (witness): the amended theorem at a stub whose table lacks the
target code: the call returns an error dictionary, not a fault. -/
theorem c6_witness :
    ∃ m, convert_currency wMissNGN "usd" "ngn" ⟨5, 0⟩ = Except.ok (ConvResult.error m) :=
  (c6_amended wMissNGN "usd" "ngn" ⟨5, 0⟩ [("rates", Json.obj [("USD", Json.num ⟨2, 0⟩)])]
    rfl rfl).mpr (Or.inr ⟨[("USD", Json.num ⟨2, 0⟩)], rfl, rfl⟩)

/-- C7: any two recognized conversion phrasings from which the same
`(amount, from, to)` triple is extracted produce the same reply from
`process_message`, whatever the Rate Client's responses. -/
theorem c7_theorem (w : World) (s1 s2 : String) (a : PyFloat) (fc tc : String)
    (h1 : classify s1 = Intent.conversion a fc tc)
    (h2 : classify s2 = Intent.conversion a fc tc) :
    process_message w s1 = process_message w s2 := by
  rw [process_message_factors, process_message_factors, h1, h2]

/-- C7 (witness): `"convert 100 usd to ngn"` and
`"how much is 100 usd in ngn"` both classify as the conversion of 100
USD to NGN, and produce the same reply against the stub world. -/
theorem c7_witness :
    classify "convert 100 usd to ngn" = Intent.conversion ⟨100, 0⟩ "usd" "ngn" ∧
    classify "how much is 100 usd in ngn" = Intent.conversion ⟨100, 0⟩ "usd" "ngn" ∧
    process_message wStub1500 "convert 100 usd to ngn" =
      process_message wStub1500 "how much is 100 usd in ngn" :=
  ⟨by decide, by decide,
   c7_theorem wStub1500 "convert 100 usd to ngn" "how much is 100 usd in ngn"
     ⟨100, 0⟩ "usd" "ngn" (by decide) (by decide)⟩

/-- C8: `process_message` responds according to the first matching rule
of the fixed ordered rule list (empty, greeting, help, thanks,
conversion, single rate, multi rate, general rate, fallback); in
particular `"convert 10 usd to ngn rate"` also matches the single-rate
pattern and contains a rate keyword, yet classifies (and is therefore
handled) as a conversion, because conversion rules are tried first. -/
theorem c8_theorem :
    (∀ (w : World) (s : String), process_message w s = applyIntent w (classify s)) ∧
    classify "convert 10 usd to ngn rate" = Intent.conversion ⟨10, 0⟩ "usd" "ngn" ∧
    (singleRateMatch (pyLower (pyStrip "convert 10 usd to ngn rate"))).isSome = true ∧
    reTest rateKwRx (pyLower (pyStrip "convert 10 usd to ngn rate")) = true :=
  ⟨process_message_factors, by decide, by decide, by decide⟩

/-- C9: the conversion amount accepts a comma as decimal separator and
normalizes it to a dot: `"convert 10,5 EUR to USD"` is processed exactly
like `"convert 10.5 EUR to USD"`, and classifies as a conversion with
amount 10.5 (= 21/2). -/
theorem c9_theorem :
    (∀ w : World, process_message w "convert 10,5 EUR to USD" =
      process_message w "convert 10.5 EUR to USD") ∧
    classify "convert 10,5 EUR to USD" = Intent.conversion ⟨21, 1⟩ "eur" "usd" := by
  constructor
  · intro w
    rw [process_message_factors, process_message_factors]
    have he : classify "convert 10,5 EUR to USD" = classify "convert 10.5 EUR to USD" := by decide
    rw [he]
  · decide

/-- C10: every value `get_rates_to_naira` returns is either exactly the
error dictionary (whose only key is the lowercase `"error"`) or a
mapping whose keys are all uppercased requested currency codes — and an
uppercased string can never be `"error"`, so a successful result never
contains that key and the callers' `"error" in result` test soundly
distinguishes the two. -/
theorem c10_theorem (w : World) (curs : Option (List String)) (m : RatesDict)
    (h : get_rates_to_naira w curs = Except.ok m) :
    (∃ msg, m = [("error", RVal.str msg)]) ∨
    ((∀ p ∈ m, ∃ c ∈ curs.getD ["USD", "EUR", "GBP", "JPY", "CAD"], p.1 = pyUpper c) ∧
     hasErrorKey m = false) := by
  cases hw : w "NGN" with
  | connectTimeout =>
    rw [get_rates_to_naira, hw] at h
    injection h with h
    exact Or.inl ⟨_, h.symm⟩
  | readTimeout =>
    rw [get_rates_to_naira, hw] at h
    injection h with h
    exact Or.inl ⟨_, h.symm⟩
  | statusError code =>
    rw [get_rates_to_naira, hw] at h
    injection h with h
    exact Or.inl ⟨_, h.symm⟩
  | requestError msg0 =>
    rw [get_rates_to_naira, hw] at h
    injection h with h
    exact Or.inl ⟨_, h.symm⟩
  | otherError msg0 =>
    rw [get_rates_to_naira, hw] at h
    injection h with h
    exact Or.inl ⟨_, h.symm⟩
  | ok data =>
    rw [get_rates_to_naira, hw] at h
    cases data with
    | num q =>
      simp only [pyContains] at h
      exact Except.noConfusion h
    | bool b =>
      simp only [pyContains] at h
      exact Except.noConfusion h
    | null =>
      simp only [pyContains] at h
      exact Except.noConfusion h
    | str s =>
      simp only [pyContains] at h
      cases hb : pyInStr "rates" s with
      | false =>
        rw [hb] at h
        simp only at h
        injection h with h
        exact Or.inl ⟨_, h.symm⟩
      | true =>
        rw [hb] at h
        simp only [pyGetDefault] at h
        exact Except.noConfusion h
    | arr xs =>
      simp only [pyContains] at h
      cases hb : xs.any (fun v => match v with | Json.str s => s = "rates" | _ => false) with
      | false =>
        rw [hb] at h
        simp only at h
        injection h with h
        exact Or.inl ⟨_, h.symm⟩
      | true =>
        rw [hb] at h
        simp only [pyGetDefault] at h
        exact Except.noConfusion h
    | obj fields =>
      simp only [pyContains] at h
      cases hb : fields.any (fun kv => kv.1 = "rates") with
      | false =>
        rw [hb] at h
        simp only at h
        injection h with h
        exact Or.inl ⟨_, h.symm⟩
      | true =>
        rw [hb] at h
        simp only [pyGetDefault] at h
        have horigin := ratesLoop_entries ((alookup "rates" fields).getD (Json.obj []))
          (curs.getD ["USD", "EUR", "GBP", "JPY", "CAD"]) [] m h
        refine Or.inr ⟨fun p hp => ?_, ?_⟩
        · rcases horigin p hp with h' | ⟨c, hc, hk, _⟩
          · cases h'
          · exact ⟨c, hc, hk⟩
        · cases hek : hasErrorKey m with
          | false => rfl
          | true =>
            rw [hasErrorKey] at hek
            obtain ⟨p, hp, hpe⟩ := List.any_eq_true.mp hek
            rcases horigin p hp with h' | ⟨c, _, hk, _⟩
            · cases h'
            · rw [decide_eq_true_iff] at hpe
              rw [hpe] at hk
              exact absurd hk.symm (pyUpper_ne_error c)

/-- C10 (witness): the theorem applied to the default-currency query
against `{"rates": {"USD": 0.00067}}`, whose result is the singleton
mapping at key `"USD"`. -/
theorem c10_witness :
    (∃ msg, [("USD", RVal.entry ⟨⟨74627, 49⟩, "$1 = ₦1,492.54"⟩)] =
      [("error", RVal.str msg)]) ∨
    ((∀ p ∈ [("USD", RVal.entry ⟨⟨74627, 49⟩, "$1 = ₦1,492.54"⟩)],
        ∃ c ∈ (none : Option (List String)).getD ["USD", "EUR", "GBP", "JPY", "CAD"],
          p.1 = pyUpper c) ∧
     hasErrorKey [("USD", RVal.entry ⟨⟨74627, 49⟩, "$1 = ₦1,492.54"⟩)] = false) :=
  c10_theorem wUSD67 none [("USD", RVal.entry ⟨⟨74627, 49⟩, "$1 = ₦1,492.54"⟩)] rfl
